import Mathlib

/-!
Verification of the WebSocket opening-handshake subsystem
(src/src/transports/websocket/ws_handshake.c).

The C code is shallowly embedded: NUL-terminated C strings become
`List Nat` of their bytes before the NUL (so a list never contains 0 when
it stands for a C string); `uint32_t` arithmetic is `Nat` with explicit
`% 2 ^ 32`; fallible C functions return `Option`.  Parsed header slices
(`addr`/`len` pairs into the receive buffer) are modelled as
`Option (List Nat)`: `none` is a NULL `addr`, `some l` is the slice
contents (`some []` is a non-NULL `addr` with `len = 0`).
-/

/-- Bytes of a string literal (used only to transcribe C string literals). -/
def strBytes (s : String) : List Nat := s.toList.map (fun c => c.toNat)

/-- NN_WS_HANDSHAKE_TERMSEQ, the CRLFCRLF terminator (definition lives in the
missing header ws_handshake.h; the spec fixes it as the four bytes 0D 0A 0D 0A). -/
def NN_WS_HANDSHAKE_TERMSEQ : List Nat := strBytes ("\r\n\r\n")

/-- NN_WS_HANDSHAKE_CRLF (per the spec, the two bytes 0D 0A). -/
def NN_WS_HANDSHAKE_CRLF : List Nat := strBytes ("\r\n")

/-- NN_WS_HANDSHAKE_MAGIC_GUID (per the spec, the 36 ASCII bytes of the RFC 6455 GUID). -/
def NN_WS_HANDSHAKE_MAGIC_GUID : List Nat := strBytes ("258EAFA5-E914-47DA-95CA-C5AB0DC85B11")

/-- Modelled from the spec: NN_WS_HANDSHAKE_ACCEPT_KEY_LEN from the missing
header ws_handshake.h; the spec fixes the accept key at 28 bytes. -/
def NN_WS_HANDSHAKE_ACCEPT_KEY_LEN : Nat := 28

def NN_WS_HANDSHAKE_NOMATCH : Int := 0
def NN_WS_HANDSHAKE_MATCH : Int := 1
def NN_WS_HANDSHAKE_VALID : Int := 0
def NN_WS_HANDSHAKE_RECV_MORE : Int := 1
def NN_WS_HANDSHAKE_INVALID : Int := -1
def NN_WS_HANDSHAKE_RESPONSE_NULL : Int := -1
def NN_WS_HANDSHAKE_RESPONSE_OK : Int := 0
def NN_WS_HANDSHAKE_RESPONSE_TOO_BIG : Int := 1
def NN_WS_HANDSHAKE_RESPONSE_WSPROTO : Int := 3
def NN_WS_HANDSHAKE_RESPONSE_WSVERSION : Int := 4
def NN_WS_HANDSHAKE_RESPONSE_NNPROTO : Int := 5
def NN_WS_HANDSHAKE_RESPONSE_NOTPEER : Int := 6
def NN_WS_HANDSHAKE_RESPONSE_UNKNOWNTYPE : Int := 7

/-- C tolower in the C locale: only ASCII A-Z are mapped. -/
def c_tolower (c : Nat) : Nat := if 65 ≤ c ∧ c ≤ 90 then c + 32 else c

/-- C isspace in the C locale: 0x20 and 0x09..0x0D. -/
def c_isspace (c : Nat) : Bool := c == 32 || (9 ≤ c && c ≤ 13)

/-- Byte comparison, optionally case-insensitive, as used by the matchers. -/
def chrEq (ci : Bool) (a b : Nat) : Bool :=
  if ci then c_tolower a == c_tolower b else a == b

/-- strstr: index of the first occurrence of needle in hay (None if absent). -/
def strstrIdx (hay needle : List Nat) : Option Nat :=
  match hay with
  | [] => if needle = [] then some 0 else none
  | h :: t =>
    if needle.isPrefixOf (h :: t) then some 0
    else (strstrIdx t needle).map (fun i => i + 1)

/-- Character-by-character comparison loop of nn_ws_match_token: runs while
both strings have characters left; mismatch is NOMATCH; the subject ending
before the token is NOMATCH; returns the advanced subject on full match. -/
def matchTokChars : List Nat → List Nat → Bool → Option (List Nat)
  | [], pos, _ => some pos
  | _ :: _, [], _ => none
  | t :: ts, p :: ps, ci => if chrEq ci t p then matchTokChars ts ps ci else none

/-- nn_ws_match_token.  Returns (rc, new cursor); the cursor is advanced only
on MATCH, mirroring that the C function writes *subj only in the success path. -/
def nn_ws_match_token (token subj : List Nat) (ci skipLeadingSp : Bool) :
    Int × List Nat :=
  let pos := if skipLeadingSp then subj.dropWhile (fun c => c == 32) else subj
  match matchTokChars token pos ci with
  | some rest => (NN_WS_HANDSHAKE_MATCH, rest)
  | none => (NN_WS_HANDSHAKE_NOMATCH, subj)

/-- The trailing-space trim loop of nn_ws_match_value. -/
def dropTrailSp (l : List Nat) : List Nat :=
  (l.reverse.dropWhile (fun c => c == 32)).reverse

/-- nn_ws_match_value.  Returns (rc, new cursor, slice written to addr/len).
The out-slice is cleared (addr NULL, len 0) at entry, so the NOMATCH branch
reports none; on MATCH an empty or all-space value yields some []. -/
def nn_ws_match_value (termseq subj : List Nat) (ignLeadSp ignTrailSp : Bool) :
    Int × List Nat × Option (List Nat) :=
  match strstrIdx subj termseq with
  | none => (NN_WS_HANDSHAKE_NOMATCH, subj, none)
  | some k =>
    let rest := subj.drop (k + termseq.length)
    let val0 := subj.take k
    let val1 := if ignLeadSp then val0.dropWhile (fun c => c == 32) else val0
    if val1 = [] then (NN_WS_HANDSHAKE_MATCH, rest, some [])
    else
      let val2 := if ignTrailSp then dropTrailSp val1 else val1
      (NN_WS_HANDSHAKE_MATCH, rest, some val2)

/-- Comparison loop of nn_ws_validate_value: runs while both strings have
characters left and returns MATCH afterwards (the length equality has
already been checked). -/
def validLoopChars : List Nat → List Nat → Bool → Bool
  | [], _, _ => true
  | _ :: _, [], _ => true
  | e :: es, s :: ss, ci => chrEq ci e s && validLoopChars es ss ci

/-- nn_ws_validate_value as a Bool (C returns MATCH = 1 / NOMATCH = 0). -/
def nn_ws_validate_value (expected subj : List Nat) (ci : Bool) : Bool :=
  expected.length == subj.length && validLoopChars expected subj ci

/-! SHA-1 (sha1_init / sha1_add / sha1_hashbyte / sha1_result).  The C
endianness trick (writing bytes at offset XOR 3 on little-endian machines)
makes each 64-byte block a sequence of 16 big-endian 32-bit words; the model
assembles the words directly.  The word buffer starts uninitialised in C; it
is modelled as zeros, which is unobservable because every byte of a block is
written before the block is compressed. -/

structure Sha1Hash where
  buffer : List Nat
  h0 : Nat
  h1 : Nat
  h2 : Nat
  h3 : Nat
  h4 : Nat
  bytes_hashed : Nat
  buffer_offset : Nat

def sha1_init : Sha1Hash :=
  { buffer := List.replicate 16 0
    h0 := 0x67452301, h1 := 0xefcdab89, h2 := 0x98badcfe
    h3 := 0x10325476, h4 := 0xc3d2e1f0
    bytes_hashed := 0, buffer_offset := 0 }

/-- sha1_rol32 on uint32. -/
def sha1_rol32 (num bits : Nat) : Nat :=
  ((num <<< bits) % 2 ^ 32) ||| (num >>> (32 - bits))

/-- Store byte number off of the current block into the word buffer,
big-endian within each word (the effect of the C endianness handling). -/
def sha1_setByte (buf : List Nat) (off data : Nat) : List Nat :=
  let w := buf.getD (off / 4) 0
  let sh := 8 * (3 - off % 4)
  buf.set (off / 4) ((w &&& (0xFFFFFFFF ^^^ (0xFF <<< sh))) ||| ((data % 256) <<< sh))

/-- Round function and constant for round i (the four quadrants). -/
def sha1_f (i b c d : Nat) : Nat :=
  if i < 20 then (d ^^^ (b &&& (c ^^^ d))) + 0x5A827999
  else if i < 40 then (b ^^^ c ^^^ d) + 0x6ED9EBA1
  else if i < 60 then ((b &&& c) ||| (d &&& (b ||| c))) + 0x8F1BBCDC
  else (b ^^^ c ^^^ d) + 0xCA62C1D6

/-- The 80-round compression loop; first argument is rounds remaining,
second is the current round index. -/
def sha1_roundLoop : Nat → Nat → List Nat → Nat → Nat → Nat → Nat → Nat →
    List Nat × Nat × Nat × Nat × Nat × Nat
  | 0, _, buf, a, b, c, d, e => (buf, a, b, c, d, e)
  | n + 1, i, buf, a, b, c, d, e =>
    let buf :=
      if 16 ≤ i then
        let t := (buf.getD ((i + 13) % 16) 0) ^^^ (buf.getD ((i + 8) % 16) 0) ^^^
                 (buf.getD ((i + 2) % 16) 0) ^^^ (buf.getD (i % 16) 0)
        buf.set (i % 16) (sha1_rol32 t 1)
      else buf
    let t := (sha1_f i b c d + sha1_rol32 a 5 + e + buf.getD (i % 16) 0) % 2 ^ 32
    sha1_roundLoop n (i + 1) buf t a (sha1_rol32 b 30) c d

def sha1_compress (s : Sha1Hash) : Sha1Hash :=
  match sha1_roundLoop 80 0 s.buffer s.h0 s.h1 s.h2 s.h3 s.h4 with
  | (buf, a, b, c, d, e) =>
    { s with buffer := buf
             h0 := (s.h0 + a) % 2 ^ 32, h1 := (s.h1 + b) % 2 ^ 32
             h2 := (s.h2 + c) % 2 ^ 32, h3 := (s.h3 + d) % 2 ^ 32
             h4 := (s.h4 + e) % 2 ^ 32
             buffer_offset := 0 }

/-- sha1_add: write one byte (the uint8_t parameter truncates mod 256),
compress when the block is full. -/
def sha1_add (s : Sha1Hash) (data : Nat) : Sha1Hash :=
  let s := { s with buffer := sha1_setByte s.buffer s.buffer_offset data
                    buffer_offset := s.buffer_offset + 1 }
  if s.buffer_offset == 64 then sha1_compress s else s

/-- sha1_hashbyte: count the byte (uint32 counter) and add it. -/
def sha1_hashbyte (s : Sha1Hash) (data : Nat) : Sha1Hash :=
  sha1_add { s with bytes_hashed := (s.bytes_hashed + 1) % 2 ^ 32 } data

/-- The zero-padding loop of sha1_result (while buffer_offset != 56, add 0).
The fuel 64 is an upper bound on its iterations: buffer_offset is always
below 64, so at most 63 zero bytes are added before offset 56 is reached. -/
def sha1_padZeros : Nat → Sha1Hash → Sha1Hash
  | 0, s => s
  | n + 1, s => if s.buffer_offset == 56 then s else sha1_padZeros n (sha1_add s 0)

/-- Big-endian bytes of one state word, as read out of the byte-order
corrected state array. -/
def be32 (w : Nat) : List Nat :=
  [(w >>> 24) &&& 255, (w >>> 16) &&& 255, (w >>> 8) &&& 255, w &&& 255]

/-- sha1_result: append 0x80, pad with zeros to offset 56, append the bit
length as 8 bytes (each truncated to uint8 at the sha1_add boundary), and
read the 20-byte digest. -/
def sha1_result (s : Sha1Hash) : List Nat :=
  let s := sha1_add s 0x80
  let s := sha1_padZeros 64 s
  let s := sha1_add s 0
  let s := sha1_add s 0
  let s := sha1_add s 0
  let s := sha1_add s (s.bytes_hashed >>> 29)
  let s := sha1_add s (s.bytes_hashed >>> 21)
  let s := sha1_add s (s.bytes_hashed >>> 13)
  let s := sha1_add s (s.bytes_hashed >>> 5)
  let s := sha1_add s ((s.bytes_hashed <<< 3) % 2 ^ 32)
  be32 s.h0 ++ be32 s.h1 ++ be32 s.h2 ++ be32 s.h3 ++ be32 s.h4

/-- Single-shot digest of a byte sequence via the streaming interface. -/
def sha1_digest (msg : List Nat) : List Nat :=
  sha1_result (msg.foldl sha1_hashbyte sha1_init)

/-! Base64 codec (base64_encode / base64_decode).  uint32 shifts are written
with / and * on powers of two plus explicit % 2 ^ 32; (v >> k) & 63 becomes
(v / 2 ^ k) % 64, and (v << 8) | ch becomes (v * 256 + ch) % 2 ^ 32 (exact
because the low 8 bits of v * 256 are zero and ch < 256). -/

def BASE64_ENCODEMAP : List Nat :=
  strBytes ("ABCDEFGHIJKLMNOPQRSTUVWXYZabcdefghijklmnopqrstuvwxyz0123456789+/")

def b64enc_at (k : Nat) : Nat := BASE64_ENCODEMAP.getD k 0

/-- Body of the inner emit loop of base64_encode, recursing on a fuel that
bounds the remaining iterations (each iteration removes 6 bits from rem, so
a fuel of rem can never run out; the fuel-0 value is the loop-exit state). -/
def b64emitGo : Nat → Nat → Nat → Nat → Nat → Option (List Nat × Nat × Nat)
  | 0, _, rem, io, _ => some ([], rem, io)
  | fuel + 1, v, rem, io, out_len =>
    if 6 ≤ rem then
      if out_len ≤ io then none
      else
        match b64emitGo fuel v (rem - 6) (io + 1) out_len with
        | none => none
        | some (cs, r, j) => some (b64enc_at ((v / 2 ^ (rem - 6)) % 64) :: cs, r, j)
    else some ([], rem, io)

/-- The inner emit loop of base64_encode: while rem >= 6, bounds-check io
and emit ENCODEMAP[(v >> (rem - 6)) & 63].  Returns the emitted characters
and the final (rem, io). -/
def b64emit (v rem io out_len : Nat) : Option (List Nat × Nat × Nat) :=
  b64emitGo rem v rem io out_len

/-- Body of the padding loop of base64_encode, recursing on a fuel that
bounds the remaining iterations (at most three pad bytes are written, so a
fuel of 4 can never run out). -/
def b64padGo : Nat → Nat → Nat → Option (List Nat × Nat)
  | 0, io, _ => some ([], io)
  | fuel + 1, io, out_len =>
    if io % 4 = 0 then some ([], io)
    else if out_len ≤ io then none
    else
      match b64padGo fuel (io + 1) out_len with
      | none => none
      | some (cs, j) => some (61 :: cs, j)

/-- The padding loop of base64_encode: while io & 3, bounds-check and
emit 0x3D. -/
def b64pad (io out_len : Nat) : Option (List Nat × Nat) :=
  b64padGo 4 io out_len

/-- Main loop of base64_encode over the input bytes, with the final
leftover-bit flush, padding, and NUL-terminator bounds check. -/
def b64encAux : List Nat → Nat → Nat → Nat → Nat → Option (List Nat)
  | [], v, rem, io, out_len =>
    if rem ≠ 0 then
      if out_len ≤ io then none
      else
        let c := ((v * 2 ^ (6 - rem)) % 2 ^ 32) % 64
        match b64pad (io + 1) out_len with
        | none => none
        | some (cs, j) => if out_len ≤ j then none else some (b64enc_at c :: cs)
    else
      match b64pad io out_len with
      | none => none
      | some (cs, j) => if out_len ≤ j then none else some cs
  | ch :: t, v, rem, io, out_len =>
    let v2 := (v * 256 + ch % 256) % 2 ^ 32
    match b64emit v2 (rem + 8) io out_len with
    | none => none
    | some (cs, _r, j) =>
      match b64encAux t v2 _r j out_len with
      | none => none
      | some rest => some (cs ++ rest)

/-- base64_encode: returns the written characters (whose count is the C
return value), or none for -ENOBUFS. -/
def base64_encode (inp : List Nat) (out_len : Nat) : Option (List Nat) :=
  b64encAux inp 0 0 0 out_len

/-- The 256-entry DECODEMAP table, transcribed from the source. -/
def BASE64_DECODEMAP : List Nat :=
  [0xFF, 0xFF, 0xFF, 0xFF, 0xFF, 0xFF, 0xFF, 0xFF,
   0xFF, 0xFF, 0xFF, 0xFF, 0xFF, 0xFF, 0xFF, 0xFF,
   0xFF, 0xFF, 0xFF, 0xFF, 0xFF, 0xFF, 0xFF, 0xFF,
   0xFF, 0xFF, 0xFF, 0xFF, 0xFF, 0xFF, 0xFF, 0xFF,
   0xFF, 0xFF, 0xFF, 0xFF, 0xFF, 0xFF, 0xFF, 0xFF,
   0xFF, 0xFF, 0xFF, 0x3E, 0xFF, 0xFF, 0xFF, 0x3F,
   0x34, 0x35, 0x36, 0x37, 0x38, 0x39, 0x3A, 0x3B,
   0x3C, 0x3D, 0xFF, 0xFF, 0xFF, 0x3E, 0xFF, 0xFF,
   0xFF, 0x00, 0x01, 0x02, 0x03, 0x04, 0x05, 0x06,
   0x07, 0x08, 0x09, 0x0A, 0x0B, 0x0C, 0x0D, 0x0E,
   0x0F, 0x10, 0x11, 0x12, 0x13, 0x14, 0x15, 0x16,
   0x17, 0x18, 0x19, 0xFF, 0xFF, 0xFF, 0xFF, 0xFF,
   0xFF, 0x1A, 0x1B, 0x1C, 0x1D, 0x1E, 0x1F, 0x20,
   0x21, 0x22, 0x23, 0x24, 0x25, 0x26, 0x27, 0x28,
   0x29, 0x2A, 0x2B, 0x2C, 0x2D, 0x2E, 0x2F, 0x30,
   0x31, 0x32, 0x33, 0xFF, 0xFF, 0xFF, 0xFF, 0xFF,
   0xFF, 0xFF, 0xFF, 0xFF, 0xFF, 0xFF, 0xFF, 0xFF,
   0xFF, 0xFF, 0xFF, 0xFF, 0xFF, 0xFF, 0xFF, 0xFF,
   0xFF, 0xFF, 0xFF, 0xFF, 0xFF, 0xFF, 0xFF, 0xFF,
   0xFF, 0xFF, 0xFF, 0xFF, 0xFF, 0xFF, 0xFF, 0xFF,
   0xFF, 0xFF, 0xFF, 0xFF, 0xFF, 0xFF, 0xFF, 0xFF,
   0xFF, 0xFF, 0xFF, 0xFF, 0xFF, 0xFF, 0xFF, 0xFF,
   0xFF, 0xFF, 0xFF, 0xFF, 0xFF, 0xFF, 0xFF, 0xFF,
   0xFF, 0xFF, 0xFF, 0xFF, 0xFF, 0xFF, 0xFF, 0xFF,
   0xFF, 0xFF, 0xFF, 0xFF, 0xFF, 0xFF, 0xFF, 0xFF,
   0xFF, 0xFF, 0xFF, 0xFF, 0xFF, 0xFF, 0xFF, 0xFF,
   0xFF, 0xFF, 0xFF, 0xFF, 0xFF, 0xFF, 0xFF, 0xFF,
   0xFF, 0xFF, 0xFF, 0xFF, 0xFF, 0xFF, 0xFF, 0xFF,
   0xFF, 0xFF, 0xFF, 0xFF, 0xFF, 0xFF, 0xFF, 0xFF,
   0xFF, 0xFF, 0xFF, 0xFF, 0xFF, 0xFF, 0xFF, 0xFF,
   0xFF, 0xFF, 0xFF, 0xFF, 0xFF, 0xFF, 0xFF, 0xFF,
   0xFF, 0xFF, 0xFF, 0xFF, 0xFF, 0xFF, 0xFF, 0xFF]

def b64dec_at (c : Nat) : Nat := BASE64_DECODEMAP.getD c 0xFF

/-- The flush after the base64_decode loop (if rem >= 8, emit one byte). -/
def b64decFin (v rem io out_len : Nat) : Option (List Nat) :=
  if 8 ≤ rem then
    if out_len ≤ io then none else some [(v / 2 ^ (rem - 8)) % 256]
  else some []

/-- Main loop of base64_decode: skip whitespace, stop at 0x3D or any
non-alphabet byte, accumulate six bits per character and emit bytes. -/
def b64decAux : List Nat → Nat → Nat → Nat → Nat → Option (List Nat)
  | [], v, rem, io, out_len => b64decFin v rem io out_len
  | c :: t, v, rem, io, out_len =>
    if c_isspace c then b64decAux t v rem io out_len
    else if c == 61 then b64decFin v rem io out_len
    else
      let ch := b64dec_at c
      if ch == 0xFF then b64decFin v rem io out_len
      else
        let v2 := (v * 64 + ch) % 2 ^ 32
        if 8 ≤ rem + 6 then
          if out_len ≤ io then none
          else
            match b64decAux t v2 (rem + 6 - 8) (io + 1) out_len with
            | none => none
            | some bs => some ((v2 / 2 ^ (rem + 6 - 8)) % 256 :: bs)
        else b64decAux t v2 (rem + 6) io out_len

/-- base64_decode: returns the written bytes (whose count is the C return
value), or none for -ENOBUFS. -/
def base64_decode (inp : List Nat) (out_len : Nat) : Option (List Nat) :=
  b64decAux inp 0 0 0 out_len

/-- nn_ws_handshake_hash_key: SHA-1 over the key bytes followed by the magic
GUID, then base64 into a buffer of hashed_len bytes. -/
def nn_ws_handshake_hash_key (key : List Nat) (hashed_len : Nat) : Option (List Nat) :=
  base64_encode (sha1_digest (key ++ NN_WS_HANDSHAKE_MAGIC_GUID)) hashed_len

/-! The SP map, the handshake record, and the two parsers. -/

/-- The SP socket kinds appearing in NN_WS_HANDSHAKE_SP_MAP.  The C code uses
the numeric NN_* constants from headers outside this repository; only their
identity matters here. -/
inductive WsSp where
  | pair | req | rep | pub | sub | surveyor | respondent | push | pull | bus
deriving DecidableEq

/-- NN_WS_HANDSHAKE_SP_MAP, in source order. -/
def NN_WS_HANDSHAKE_SP_MAP : List (WsSp × List Nat) :=
  [(.pair, strBytes ("x-nanomsg-pair")),
   (.req, strBytes ("x-nanomsg-req")),
   (.rep, strBytes ("x-nanomsg-rep")),
   (.pub, strBytes ("x-nanomsg-pub")),
   (.sub, strBytes ("x-nanomsg-sub")),
   (.surveyor, strBytes ("x-nanomsg-surveyor")),
   (.respondent, strBytes ("x-nanomsg-respondent")),
   (.push, strBytes ("x-nanomsg-push")),
   (.pull, strBytes ("x-nanomsg-pull")),
   (.bus, strBytes ("x-nanomsg-bus"))]

/-- The parsed-slice fields of struct nn_ws_handshake (each addr/len pair is
one Option), plus response_code and the client's precomputed
expected_accept_key. -/
structure WsHandshake where
  host : Option (List Nat) := none
  origin : Option (List Nat) := none
  key : Option (List Nat) := none
  upgrade : Option (List Nat) := none
  conn : Option (List Nat) := none
  version : Option (List Nat) := none
  protocol : Option (List Nat) := none
  extensions : Option (List Nat) := none
  uri : Option (List Nat) := none
  status_code : Option (List Nat) := none
  reason_phrase : Option (List Nat) := none
  server : Option (List Nat) := none
  accept_key : Option (List Nat) := none
  response_code : Int := NN_WS_HANDSHAKE_RESPONSE_NULL
  expected_accept_key : List Nat := []
deriving DecidableEq

/-- A handshake record with no slice captured (all addr NULL). -/
def wsHs0 : WsHandshake := {}

/-- The loop over NN_WS_HANDSHAKE_SP_MAP in the protocol check of
nn_ws_handshake_parse_client_opening: first case-insensitive match wins. -/
def spMapLookup : List (WsSp × List Nat) → List Nat → Option WsSp
  | [], _ => none
  | (sp, tok) :: rest, p =>
    if nn_ws_validate_value tok p true then some sp else spMapLookup rest p

/-- The validation tail of nn_ws_handshake_parse_client_opening (everything
after the header block is fully parsed): required headers, version, upgrade,
connection, then the SP compatibility check.  Returns the updated record
(response_code is set on every path) and VALID / INVALID. -/
def nn_ws_validate_opening (st : WsHandshake) (ispeer : WsSp → Bool) :
    WsHandshake × Int :=
  if st.host = none ∨ st.upgrade = none ∨ st.conn = none ∨ st.key = none ∨
      st.version = none then
    ({ st with response_code := NN_WS_HANDSHAKE_RESPONSE_WSPROTO },
      NN_WS_HANDSHAKE_INVALID)
  else if nn_ws_validate_value (strBytes ("13")) (st.version.getD []) true = false then
    ({ st with response_code := NN_WS_HANDSHAKE_RESPONSE_WSVERSION },
      NN_WS_HANDSHAKE_INVALID)
  else if nn_ws_validate_value (strBytes ("websocket")) (st.upgrade.getD []) true = false then
    ({ st with response_code := NN_WS_HANDSHAKE_RESPONSE_WSPROTO },
      NN_WS_HANDSHAKE_INVALID)
  else if nn_ws_validate_value (strBytes ("Upgrade")) (st.conn.getD []) true = false then
    ({ st with response_code := NN_WS_HANDSHAKE_RESPONSE_WSPROTO },
      NN_WS_HANDSHAKE_INVALID)
  else
    match st.protocol with
    | some p =>
      match spMapLookup NN_WS_HANDSHAKE_SP_MAP p with
      | some sp =>
        if ispeer sp then
          ({ st with response_code := NN_WS_HANDSHAKE_RESPONSE_OK },
            NN_WS_HANDSHAKE_VALID)
        else
          ({ st with response_code := NN_WS_HANDSHAKE_RESPONSE_NOTPEER },
            NN_WS_HANDSHAKE_INVALID)
      | none =>
        ({ st with response_code := NN_WS_HANDSHAKE_RESPONSE_UNKNOWNTYPE },
          NN_WS_HANDSHAKE_INVALID)
    | none =>
      if ispeer .pair then
        ({ st with response_code := NN_WS_HANDSHAKE_RESPONSE_OK },
          NN_WS_HANDSHAKE_VALID)
      else
        ({ st with response_code := NN_WS_HANDSHAKE_RESPONSE_NOTPEER },
          NN_WS_HANDSHAKE_INVALID)

/-- Result of a header-line loop: RECV_MORE requested, the loop finished
(break on bare CRLF, or the cursor is empty) with the remaining cursor, or
the modelling fuel ran out (unreachable: every iteration consumes at least
one byte of the cursor and the fuel is the cursor length plus one). -/
inductive HdrLoopRes where
  | needMore (st : WsHandshake)
  | finished (st : WsHandshake) (pos : List Nat)
  | fuelOut
deriving DecidableEq

/-- The header-line loop of nn_ws_handshake_parse_client_opening, branch
order as in the source. -/
def clientHdrLoop : Nat → WsHandshake → List Nat → HdrLoopRes
  | 0, _, _ => .fuelOut
  | fuel + 1, st, pos =>
    if pos = [] then .finished st pos
    else
      let rHost := nn_ws_match_token (strBytes ("Host:")) pos true false
      if rHost.1 = NN_WS_HANDSHAKE_MATCH then
        let rv := nn_ws_match_value NN_WS_HANDSHAKE_CRLF rHost.2 true true
        let st := { st with host := rv.2.2 }
        if rv.1 = NN_WS_HANDSHAKE_MATCH then clientHdrLoop fuel st rv.2.1
        else .needMore st
      else
      let rOrigin := nn_ws_match_token (strBytes ("Origin:")) pos true false
      if rOrigin.1 = NN_WS_HANDSHAKE_MATCH then
        let rv := nn_ws_match_value NN_WS_HANDSHAKE_CRLF rOrigin.2 true true
        let st := { st with origin := rv.2.2 }
        if rv.1 = NN_WS_HANDSHAKE_MATCH then clientHdrLoop fuel st rv.2.1
        else .needMore st
      else
      let rKey := nn_ws_match_token (strBytes ("Sec-WebSocket-Key:")) pos true false
      if rKey.1 = NN_WS_HANDSHAKE_MATCH then
        let rv := nn_ws_match_value NN_WS_HANDSHAKE_CRLF rKey.2 true true
        let st := { st with key := rv.2.2 }
        if rv.1 = NN_WS_HANDSHAKE_MATCH then clientHdrLoop fuel st rv.2.1
        else .needMore st
      else
      let rUpg := nn_ws_match_token (strBytes ("Upgrade:")) pos true false
      if rUpg.1 = NN_WS_HANDSHAKE_MATCH then
        let rv := nn_ws_match_value NN_WS_HANDSHAKE_CRLF rUpg.2 true true
        let st := { st with upgrade := rv.2.2 }
        if rv.1 = NN_WS_HANDSHAKE_MATCH then clientHdrLoop fuel st rv.2.1
        else .needMore st
      else
      let rConn := nn_ws_match_token (strBytes ("Connection:")) pos true false
      if rConn.1 = NN_WS_HANDSHAKE_MATCH then
        let rv := nn_ws_match_value NN_WS_HANDSHAKE_CRLF rConn.2 true true
        let st := { st with conn := rv.2.2 }
        if rv.1 = NN_WS_HANDSHAKE_MATCH then clientHdrLoop fuel st rv.2.1
        else .needMore st
      else
      let rVer := nn_ws_match_token (strBytes ("Sec-WebSocket-Version:")) pos true false
      if rVer.1 = NN_WS_HANDSHAKE_MATCH then
        let rv := nn_ws_match_value NN_WS_HANDSHAKE_CRLF rVer.2 true true
        let st := { st with version := rv.2.2 }
        if rv.1 = NN_WS_HANDSHAKE_MATCH then clientHdrLoop fuel st rv.2.1
        else .needMore st
      else
      let rProto := nn_ws_match_token (strBytes ("Sec-WebSocket-Protocol:")) pos true false
      if rProto.1 = NN_WS_HANDSHAKE_MATCH then
        let rv := nn_ws_match_value NN_WS_HANDSHAKE_CRLF rProto.2 true true
        let st := { st with protocol := rv.2.2 }
        if rv.1 = NN_WS_HANDSHAKE_MATCH then clientHdrLoop fuel st rv.2.1
        else .needMore st
      else
      let rExt := nn_ws_match_token (strBytes ("Sec-WebSocket-Extensions:")) pos true false
      if rExt.1 = NN_WS_HANDSHAKE_MATCH then
        let rv := nn_ws_match_value NN_WS_HANDSHAKE_CRLF rExt.2 true true
        let st := { st with extensions := rv.2.2 }
        if rv.1 = NN_WS_HANDSHAKE_MATCH then clientHdrLoop fuel st rv.2.1
        else .needMore st
      else
      let rCrlf := nn_ws_match_token NN_WS_HANDSHAKE_CRLF pos true false
      if rCrlf.1 = NN_WS_HANDSHAKE_MATCH then .finished st rCrlf.2
      else
        let rv := nn_ws_match_value NN_WS_HANDSHAKE_CRLF pos true true
        if rv.1 = NN_WS_HANDSHAKE_MATCH then clientHdrLoop fuel st rv.2.1
        else .needMore st

/-- nn_ws_handshake_parse_client_opening.  The input buf is the receive
buffer as a C string (bytes before its NUL).  Returns none on an nn_assert
failure (trailing bytes after the final CRLFCRLF) or fuel exhaustion
(unreachable); otherwise the updated record and VALID / RECV_MORE / INVALID. -/
def nn_ws_handshake_parse_client_opening (st0 : WsHandshake)
    (ispeer : WsSp → Bool) (buf : List Nat) : Option (WsHandshake × Int) :=
  if (strstrIdx buf NN_WS_HANDSHAKE_TERMSEQ).isNone then
    some (st0, NN_WS_HANDSHAKE_RECV_MORE)
  else
    let st := { st0 with host := none, origin := none, key := none,
                         upgrade := none, conn := none, version := none,
                         protocol := none, uri := none,
                         response_code := NN_WS_HANDSHAKE_RESPONSE_NULL }
    let rGet := nn_ws_match_token (strBytes ("GET ")) buf false false
    if rGet.1 ≠ NN_WS_HANDSHAKE_MATCH then some (st, NN_WS_HANDSHAKE_RECV_MORE)
    else
      let rUri := nn_ws_match_value (strBytes (" ")) rGet.2 false false
      let st := { st with uri := rUri.2.2 }
      if rUri.1 ≠ NN_WS_HANDSHAKE_MATCH then some (st, NN_WS_HANDSHAKE_RECV_MORE)
      else
        let rHttp := nn_ws_match_token (strBytes ("HTTP/1.1")) rUri.2.1 false false
        if rHttp.1 ≠ NN_WS_HANDSHAKE_MATCH then some (st, NN_WS_HANDSHAKE_RECV_MORE)
        else
          let rCrlf := nn_ws_match_token NN_WS_HANDSHAKE_CRLF rHttp.2 false false
          if rCrlf.1 ≠ NN_WS_HANDSHAKE_MATCH then some (st, NN_WS_HANDSHAKE_RECV_MORE)
          else
            match clientHdrLoop (rCrlf.2.length + 1) st rCrlf.2 with
            | .needMore st' => some (st', NN_WS_HANDSHAKE_RECV_MORE)
            | .fuelOut => none
            | .finished st' pos =>
              if pos ≠ [] then none
              else some (nn_ws_validate_opening st' ispeer)

/-- The header-line loop of nn_ws_handshake_parse_server_response, branch
order as in the source. -/
def respHdrLoop : Nat → WsHandshake → List Nat → HdrLoopRes
  | 0, _, _ => .fuelOut
  | fuel + 1, st, pos =>
    if pos = [] then .finished st pos
    else
      let rSrv := nn_ws_match_token (strBytes ("Server:")) pos true false
      if rSrv.1 = NN_WS_HANDSHAKE_MATCH then
        let rv := nn_ws_match_value NN_WS_HANDSHAKE_CRLF rSrv.2 true true
        let st := { st with server := rv.2.2 }
        if rv.1 = NN_WS_HANDSHAKE_MATCH then respHdrLoop fuel st rv.2.1
        else .needMore st
      else
      let rAcc := nn_ws_match_token (strBytes ("Sec-WebSocket-Accept:")) pos true false
      if rAcc.1 = NN_WS_HANDSHAKE_MATCH then
        let rv := nn_ws_match_value NN_WS_HANDSHAKE_CRLF rAcc.2 true true
        let st := { st with accept_key := rv.2.2 }
        if rv.1 = NN_WS_HANDSHAKE_MATCH then respHdrLoop fuel st rv.2.1
        else .needMore st
      else
      let rUpg := nn_ws_match_token (strBytes ("Upgrade:")) pos true false
      if rUpg.1 = NN_WS_HANDSHAKE_MATCH then
        let rv := nn_ws_match_value NN_WS_HANDSHAKE_CRLF rUpg.2 true true
        let st := { st with upgrade := rv.2.2 }
        if rv.1 = NN_WS_HANDSHAKE_MATCH then respHdrLoop fuel st rv.2.1
        else .needMore st
      else
      let rConn := nn_ws_match_token (strBytes ("Connection:")) pos true false
      if rConn.1 = NN_WS_HANDSHAKE_MATCH then
        let rv := nn_ws_match_value NN_WS_HANDSHAKE_CRLF rConn.2 true true
        let st := { st with conn := rv.2.2 }
        if rv.1 = NN_WS_HANDSHAKE_MATCH then respHdrLoop fuel st rv.2.1
        else .needMore st
      else
      let rVer := nn_ws_match_token (strBytes ("Sec-WebSocket-Version-Server:")) pos true false
      if rVer.1 = NN_WS_HANDSHAKE_MATCH then
        let rv := nn_ws_match_value NN_WS_HANDSHAKE_CRLF rVer.2 true true
        let st := { st with version := rv.2.2 }
        if rv.1 = NN_WS_HANDSHAKE_MATCH then respHdrLoop fuel st rv.2.1
        else .needMore st
      else
      let rProto := nn_ws_match_token (strBytes ("Sec-WebSocket-Protocol-Server:")) pos true false
      if rProto.1 = NN_WS_HANDSHAKE_MATCH then
        let rv := nn_ws_match_value NN_WS_HANDSHAKE_CRLF rProto.2 true true
        let st := { st with protocol := rv.2.2 }
        if rv.1 = NN_WS_HANDSHAKE_MATCH then respHdrLoop fuel st rv.2.1
        else .needMore st
      else
      let rExt := nn_ws_match_token (strBytes ("Sec-WebSocket-Extensions:")) pos true false
      if rExt.1 = NN_WS_HANDSHAKE_MATCH then
        let rv := nn_ws_match_value NN_WS_HANDSHAKE_CRLF rExt.2 true true
        let st := { st with extensions := rv.2.2 }
        if rv.1 = NN_WS_HANDSHAKE_MATCH then respHdrLoop fuel st rv.2.1
        else .needMore st
      else
      let rCrlf := nn_ws_match_token NN_WS_HANDSHAKE_CRLF pos true false
      if rCrlf.1 = NN_WS_HANDSHAKE_MATCH then .finished st rCrlf.2
      else
        let rv := nn_ws_match_value NN_WS_HANDSHAKE_CRLF pos true true
        if rv.1 = NN_WS_HANDSHAKE_MATCH then respHdrLoop fuel st rv.2.1
        else .needMore st

/-- The parsing phase of nn_ws_handshake_parse_server_response: field reset,
status line, then the header loop. -/
def nn_ws_resp_phase (st0 : WsHandshake) (buf : List Nat) : HdrLoopRes :=
  let st := { st0 with status_code := none, reason_phrase := none,
                       server := none, accept_key := none, upgrade := none,
                       conn := none, version := none, protocol := none }
  let rHttp := nn_ws_match_token (strBytes ("HTTP/1.1 ")) buf false false
  if rHttp.1 ≠ NN_WS_HANDSHAKE_MATCH then .needMore st
  else
    let rSc := nn_ws_match_value (strBytes (" ")) rHttp.2 false false
    let st := { st with status_code := rSc.2.2 }
    if rSc.1 ≠ NN_WS_HANDSHAKE_MATCH then .needMore st
    else
      let rRp := nn_ws_match_value NN_WS_HANDSHAKE_CRLF rSc.2.1 false false
      let st := { st with reason_phrase := rRp.2.2 }
      if rRp.1 ≠ NN_WS_HANDSHAKE_MATCH then .needMore st
      else respHdrLoop (rRp.2.1.length + 1) st rRp.2.1

/-- The validation tail of nn_ws_handshake_parse_server_response: required
slices, then status code 101, upgrade, connection, and the accept key against
expected_accept_key, each via nn_ws_validate_value with case folding. -/
def nn_ws_validate_response (st : WsHandshake) : Int :=
  if st.status_code = none ∨ st.upgrade = none ∨ st.conn = none ∨
      st.accept_key = none then NN_WS_HANDSHAKE_INVALID
  else if nn_ws_validate_value (strBytes ("101")) (st.status_code.getD []) true = false then
    NN_WS_HANDSHAKE_INVALID
  else if nn_ws_validate_value (strBytes ("websocket")) (st.upgrade.getD []) true = false then
    NN_WS_HANDSHAKE_INVALID
  else if nn_ws_validate_value (strBytes ("Upgrade")) (st.conn.getD []) true = false then
    NN_WS_HANDSHAKE_INVALID
  else if nn_ws_validate_value st.expected_accept_key (st.accept_key.getD []) true = false then
    NN_WS_HANDSHAKE_INVALID
  else NN_WS_HANDSHAKE_VALID

/-- nn_ws_handshake_parse_server_response, assembled like the client parser. -/
def nn_ws_handshake_parse_server_response (st0 : WsHandshake) (buf : List Nat) :
    Option (WsHandshake × Int) :=
  if (strstrIdx buf NN_WS_HANDSHAKE_TERMSEQ).isNone then
    some (st0, NN_WS_HANDSHAKE_RECV_MORE)
  else
    match nn_ws_resp_phase st0 buf with
    | .needMore st' => some (st', NN_WS_HANDSHAKE_RECV_MORE)
    | .fuelOut => none
    | .finished st' pos =>
      if pos ≠ [] then none
      else some (st', nn_ws_validate_response st')

/-! Server reply generator and the streaming receive loop of the handler. -/

/-- nn_ws_handshake_server_reply: the bytes written into the response buffer
and submitted as a single send.  none models the nn_assert(0) on an
unexpected response_code and the (unreachable) hash failure. -/
def nn_ws_handshake_server_reply (st : WsHandshake) : Option (List Nat) :=
  if st.response_code = NN_WS_HANDSHAKE_RESPONSE_OK then
    match nn_ws_handshake_hash_key (st.key.getD [])
        (NN_WS_HANDSHAKE_ACCEPT_KEY_LEN + 1) with
    | none => none
    | some accept_key =>
      some (strBytes ("HTTP/1.1 101 Switching Protocols\r\nUpgrade: websocket\r\nConnection: Upgrade\r\nSec-WebSocket-Accept: ")
        ++ accept_key
        ++ strBytes ("\r\nSec-WebSocket-Protocol: ")
        ++ st.protocol.getD []
        ++ strBytes ("\r\n\r\n"))
  else
    let code : Option (List Nat) :=
      if st.response_code = NN_WS_HANDSHAKE_RESPONSE_TOO_BIG then
        some (strBytes ("400 Opening Handshake Too Long"))
      else if st.response_code = NN_WS_HANDSHAKE_RESPONSE_WSPROTO then
        some (strBytes ("400 Cannot Have Body"))
      else if st.response_code = NN_WS_HANDSHAKE_RESPONSE_WSVERSION then
        some (strBytes ("400 Unsupported WebSocket Version"))
      else if st.response_code = NN_WS_HANDSHAKE_RESPONSE_NNPROTO then
        some (strBytes ("400 Missing nanomsg Required Headers"))
      else if st.response_code = NN_WS_HANDSHAKE_RESPONSE_NOTPEER then
        some (strBytes ("400 Incompatible Socket Type"))
      else if st.response_code = NN_WS_HANDSHAKE_RESPONSE_UNKNOWNTYPE then
        some (strBytes ("400 Unrecognized Socket Type"))
      else none
    match code with
    | none => none
    | some c =>
      some (strBytes ("HTTP/1.1 ") ++ c ++ NN_WS_HANDSHAKE_CRLF
        ++ strBytes ("Sec-WebSocket-Version: ") ++ st.version.getD []
        ++ NN_WS_HANDSHAKE_CRLF)

/-- The initial recv_len computed in nn_ws_handshake_start for SERVER mode
(strlen of the minimum plausible opening handshake). -/
def serverMinRecvLen : Nat :=
  (strBytes ("GET x HTTP/1.1\r\nUpgrade: websocket\r\nConnection: Upgrade\r\nHost: x\r\nOrigin: x\r\nSec-WebSocket-Key: xxxxxxxxxxxxxxxxxxxxxxxx\r\nSec-WebSocket-Version: xx\r\n\r\n")).length

/-- The initial recv_len computed in nn_ws_handshake_start for CLIENT mode. -/
def clientMinRecvLen : Nat := (strBytes ("HTTP/1.1 xxx\r\n\r\n")).length

/-- Modelled from the spec: sizeof of the fixed opening_hs receive buffer,
declared in the missing header ws_handshake.h; the spec recommends a fixed
byte buffer of at least 4096 bytes. -/
def NN_WS_BUF_SIZE : Nat := 4096

/-- One memcmp of the backward scan: do the last i received bytes equal the
first i bytes of the termination sequence? -/
def matchBack (data : List Nat) (i : Nat) : Bool :=
  data.drop (data.length - i) == NN_WS_HANDSHAKE_TERMSEQ.take i

/-- The backward scan over the last TERMSEQ_LEN received bytes in the
RECV_MORE arm of the handler: the loop counts i down from 4, so it returns
the largest i whose memcmp succeeds (i = 0 always succeeds). -/
def termseqScan (data : List Nat) : Nat :=
  if matchBack data 4 then 4
  else if matchBack data 3 then 3
  else if matchBack data 2 then 2
  else if matchBack data 1 then 1
  else 0

/-- State of the SERVER_RECV receive loop: the handshake record, the bytes
received so far (the filled prefix of the zero-initialised opening_hs
buffer; recv_pos after the pending recv completes is data.length), and the
posted chunk size recv_len. -/
structure SrvSt where
  hs : WsHandshake
  data : List Nat
  recv_len : Nat
deriving DecidableEq

/-- Outcome of one NN_USOCK_RECEIVED event in SERVER_RECV: another recv is
posted, the FSM moves to SERVER_REPLY (on VALID, INVALID or TOO_BIG), or an
nn_assert fails (process abort). -/
inductive SrvOut where
  | more (st : SrvSt)
  | reply (st : SrvSt)
  | crash
deriving DecidableEq

/-- The NN_USOCK_RECEIVED arm of the handler in SERVER_RECV state.  The
chunk (of the posted recv_len bytes) lands at offset data.length; the
parser sees the buffer as a C string, whose NUL-presence nn_assert is
modelled first: the buffer contains a NUL iff the filled prefix is shorter
than the buffer or some received byte is zero. -/
def nn_ws_srv_step (ispeer : WsSp → Bool) (st : SrvSt) (chunk : List Nat) :
    SrvOut :=
  let data := st.data ++ chunk
  if data.length < NN_WS_BUF_SIZE ∨ data.contains 0 = true then
    match nn_ws_handshake_parse_client_opening st.hs ispeer
        (data.takeWhile (fun b => b ≠ 0)) with
    | none => .crash
    | some (hs', rc) =>
      if rc = NN_WS_HANDSHAKE_RECV_MORE then
        if data.length < NN_WS_BUF_SIZE then
          if 4 ≤ data.length then
            let i := termseqScan data
            if i < 4 then
              let rl := 4 - i
              if NN_WS_BUF_SIZE < rl + data.length then
                .reply { hs := { hs' with response_code := NN_WS_HANDSHAKE_RESPONSE_TOO_BIG },
                         data := data, recv_len := rl }
              else
                .more { hs := hs', data := data, recv_len := rl }
            else .crash
          else .crash
        else .crash
      else .reply { hs := hs', data := data, recv_len := st.recv_len }
  else .crash

/-- Receive-loop states reachable from the start of a SERVER handshake: the
initial state posts serverMinRecvLen bytes into the zeroed buffer, and each
completed recv whose outcome is another recv extends the trace.  The initial
handshake record is arbitrary (the C struct fields are uninitialised until
the parser first resets them). -/
inductive SrvReach (ispeer : WsSp → Bool) : SrvSt → Prop where
  | init (hs : WsHandshake) :
      SrvReach ispeer { hs := hs, data := [], recv_len := serverMinRecvLen }
  | step {st st' : SrvSt} (chunk : List Nat) :
      SrvReach ispeer st → chunk.length = st.recv_len →
      nn_ws_srv_step ispeer st chunk = .more st' → SrvReach ispeer st'

/-! The event-driven state machine (nn_ws_handshake_handler), with the
parse result and chunk-fit computation of a RECEIVED event abstracted into
the event itself. -/

inductive WsMode where
  | client | server
deriving DecidableEq, Fintype

/-- The FSM states of ws_handshake.c (NN_WS_HANDSHAKE_STATE_*). -/
inductive HsState where
  | idle | serverRecv | serverReply | clientSend | clientRecv
  | handshakeSent | stoppingTimerError | stoppingTimerDone | done | stopping
deriving DecidableEq, Fintype

/-- Outcome of running the parser and, on RECV_MORE, the next-chunk
computation, at a RECEIVED event: each concrete buffer produces exactly one
of these. -/
inductive POutcome where
  | valid | invalid | moreFits | moreOverflow
deriving DecidableEq, Fintype

/-- Events routed to the handler: the START action, socket completions and
timer events (source and type of the C dispatch). -/
inductive WsEvt where
  | start
  | sent
  | received (pr : POutcome)
  | shutdown
  | sockError
  | timeout
  | stopped
deriving DecidableEq, Fintype

inductive WsRes where
  | ok | err
deriving DecidableEq, Fintype

/-- Externally visible actions the handler performs. -/
inductive WsAct where
  | timerStart
  | timerStop
  | sockSend
  | sockRecv
  | raiseDone (r : WsRes)
deriving DecidableEq, Fintype

/-- One dispatch of nn_ws_handshake_handler: none is an
nn_fsm_bad_source / bad_action / bad_state abort.  In SERVER_REPLY the
NN_USOCK_SENT case falls through into the SHUTDOWN case, whose body is just
return, so its effect is stop-timer and move to STOPPING_TIMER_DONE. -/
def wsStep (mode : WsMode) (st : HsState) (e : WsEvt) :
    Option (HsState × List WsAct) :=
  match st, e with
  | .idle, .start =>
    match mode with
    | .client => some (.clientSend, [.timerStart, .sockSend])
    | .server => some (.serverRecv, [.timerStart, .sockRecv])
  | .idle, _ => none
  | .serverRecv, .received pr =>
    match pr with
    | .valid => some (.serverReply, [.sockSend])
    | .invalid => some (.serverReply, [.sockSend])
    | .moreFits => some (.serverRecv, [.sockRecv])
    | .moreOverflow => some (.serverReply, [.sockSend])
  | .serverRecv, .shutdown => some (.serverRecv, [])
  | .serverRecv, .sockError => some (.stoppingTimerError, [.timerStop])
  | .serverRecv, .timeout => some (.stoppingTimerError, [.timerStop])
  | .serverRecv, _ => none
  | .serverReply, .sent => some (.stoppingTimerDone, [.timerStop])
  | .serverReply, .shutdown => some (.serverReply, [])
  | .serverReply, .sockError => some (.stoppingTimerError, [.timerStop])
  | .serverReply, .timeout => some (.stoppingTimerError, [.timerStop])
  | .serverReply, _ => none
  | .clientSend, .sent => some (.clientRecv, [.sockRecv])
  | .clientSend, .shutdown => some (.clientSend, [])
  | .clientSend, .sockError => some (.stoppingTimerError, [.timerStop])
  | .clientSend, .timeout => some (.stoppingTimerError, [.timerStop])
  | .clientSend, _ => none
  | .clientRecv, .received pr =>
    match pr with
    | .valid => some (.stoppingTimerDone, [.timerStop])
    | .invalid => some (.stoppingTimerError, [.timerStop])
    | .moreFits => some (.clientRecv, [.sockRecv])
    | .moreOverflow => some (.stoppingTimerError, [.timerStop])
  | .clientRecv, .shutdown => some (.clientRecv, [])
  | .clientRecv, .sockError => some (.stoppingTimerError, [.timerStop])
  | .clientRecv, .timeout => some (.stoppingTimerError, [.timerStop])
  | .clientRecv, _ => none
  | .handshakeSent, .sent => some (.stoppingTimerDone, [.timerStop])
  | .handshakeSent, .shutdown => some (.handshakeSent, [])
  | .handshakeSent, .sockError => some (.stoppingTimerError, [.timerStop])
  | .handshakeSent, .timeout => some (.stoppingTimerError, [.timerStop])
  | .handshakeSent, _ => none
  | .stoppingTimerError, .sent => some (.stoppingTimerError, [])
  | .stoppingTimerError, .received _ => some (.stoppingTimerError, [])
  | .stoppingTimerError, .shutdown => some (.stoppingTimerError, [])
  | .stoppingTimerError, .sockError => some (.stoppingTimerError, [])
  | .stoppingTimerError, .stopped => some (.done, [.raiseDone .err])
  | .stoppingTimerError, _ => none
  | .stoppingTimerDone, .sent => some (.stoppingTimerDone, [])
  | .stoppingTimerDone, .received _ => some (.stoppingTimerDone, [])
  | .stoppingTimerDone, .shutdown => some (.stoppingTimerDone, [])
  | .stoppingTimerDone, .sockError => some (.stoppingTimerDone, [])
  | .stoppingTimerDone, .stopped => some (.done, [.raiseDone .ok])
  | .stoppingTimerDone, _ => none
  | .done, _ => none
  | .stopping, _ => none

/-- Run the handler over an event list: the final state (none once a
dispatch aborts) and the concatenated actions of the successful dispatches. -/
def wsRun (mode : WsMode) : HsState → List WsEvt → Option HsState × List WsAct
  | st, [] => (some st, [])
  | st, e :: es =>
    match wsStep mode st e with
    | none => (none, [])
    | some (st', acts) =>
      match wsRun mode st' es with
      | (fin, rest) => (fin, acts ++ rest)

/-- Number of done-event publications in an action sequence. -/
def raiseCount (l : List WsAct) : Nat :=
  l.countP (fun a => match a with | .raiseDone _ => true | _ => false)

/-- Scan an action sequence: first component is whether every raiseDone is
preceded by an earlier timerStop (given that seen records a stop already
requested), second is whether a timerStop has been seen by the end. -/
def stopBR (seen : Bool) : List WsAct → Bool × Bool
  | [] => (true, seen)
  | a :: t =>
    match a with
    | .raiseDone _ => let r := stopBR seen t; (seen && r.1, r.2)
    | .timerStop => stopBR true t
    | _ => stopBR seen t

/-- Every published result in the sequence comes after a timer-stop request. -/
def stopBeforeRaise (l : List WsAct) : Bool := (stopBR false l).1

/-- States in which a timer stop has already been requested (the stopping
states are only entered together with an nn_timer_stop call, and DONE is
only entered from them). -/
def stopReq : HsState → Bool
  | .stoppingTimerError => true
  | .stoppingTimerDone => true
  | .done => true
  | _ => false

/-- Per-dispatch bookkeeping facts, checked over the whole finite step
table: a dispatch publishes a result exactly when it enters DONE; the
stop-scan of its actions never sees a raise before a stop and tracks
stopReq exactly; no dispatch leaves DONE; and any published result happens
on the timer STOPPED event out of a stopping state into DONE. -/
def wsStepChecks (mode : WsMode) (st : HsState) (e : WsEvt) : Bool :=
  match wsStep mode st e with
  | none => true
  | some (st', acts) =>
    decide (raiseCount acts = if st' = HsState.done then 1 else 0) &&
    decide (stopBR (stopReq st) acts = (true, stopReq st')) &&
    decide (st ≠ HsState.done) &&
    decide (∀ r, WsAct.raiseDone r ∈ acts →
      e = WsEvt.stopped ∧
      (st = HsState.stoppingTimerError ∨ st = HsState.stoppingTimerDone) ∧
      st' = HsState.done)

/-- The state stored in a HdrLoopRes (wsHs0 for the unreachable fuelOut). -/
def hdrLoopSt : HdrLoopRes → WsHandshake
  | .needMore st => st
  | .finished st _ => st
  | .fuelOut => wsHs0

/-- A first received chunk of serverMinRecvLen bytes whose request line is
malformed while the buffer already ends in a full CRLFCRLF: 147 bytes of
0x41 followed by the four terminator bytes. -/
def c5buf : List Nat := List.replicate 147 65 ++ NN_WS_HANDSHAKE_TERMSEQ

/-- First chunk of the buffer-filling stream: 148 bytes of 0x41 followed by
CR LF CR (so the first backward scan matches three terminator bytes and the
next chunk is a single byte). -/
def c6chunk1 : List Nat := List.replicate 148 65 ++ [13, 10, 13]

/-- Bytes received after the k-th 4-byte round of the buffer-filling
stream: the first chunk, one 0x41, then k rounds of four 0x41 bytes. -/
def c6data (k : Nat) : List Nat := c6chunk1 ++ List.replicate (1 + 4 * k) 65

/-- Receive-loop state after the k-th 4-byte round of the buffer-filling
stream. -/
def c6st (k : Nat) : SrvSt := { hs := wsHs0, data := c6data k, recv_len := 4 }

/-! Helper lemmas: power-of-two extraction arithmetic used to evaluate the
uint32 bit operations of the base64 loops on symbolic bytes. -/

theorem mod_pow32_mod (x m : Nat) (h : m ≤ 32) : (x % 2 ^ 32) % 2 ^ m = x % 2 ^ m :=
  Nat.mod_mod_of_dvd x (pow_dvd_pow 2 h)

theorem div_pow_mod_pow (x k j : Nat) : (x / 2 ^ k) % 2 ^ j = x % 2 ^ (k + j) / 2 ^ k := by
  rw [← Nat.mod_mul_right_div_self, ← pow_add]

theorem mod32_shift (x k j : Nat) (h : k + j ≤ 32) :
    (x % 2 ^ 32 / 2 ^ k) % 2 ^ j = (x / 2 ^ k) % 2 ^ j := by
  rw [div_pow_mod_pow, mod_pow32_mod _ _ h, ← div_pow_mod_pow]

theorem mul_pow_add_mod (v a p m : Nat) (hm : m ≤ p) :
    (v * 2 ^ p + a) % 2 ^ m = a % 2 ^ m := by
  have hp : 2 ^ p = 2 ^ m * 2 ^ (p - m) := by
    rw [← pow_add]
    congr 1
    omega
  have h : v * 2 ^ p = 2 ^ m * (v * 2 ^ (p - m)) := by
    rw [hp]
    ring
  rw [h, Nat.mul_add_mod]

theorem mul_pow_add_div (v a p k : Nat) (hk : k ≤ p) :
    (v * 2 ^ p + a) / 2 ^ k = v * 2 ^ (p - k) + a / 2 ^ k := by
  have h : v * 2 ^ p = v * 2 ^ (p - k) * 2 ^ k := by
    rw [mul_assoc, ← pow_add]
    congr 2
    omega
  rw [h, add_comm, Nat.add_mul_div_right _ _ (Nat.pos_pow_of_pos k (by norm_num)), add_comm]

theorem mul_pow_add_mod_high (v a p q : Nat) (ha : a < 2 ^ p) :
    (v * 2 ^ p + a) % 2 ^ (p + q) = v % 2 ^ q * 2 ^ p + a := by
  have h1 : v * 2 ^ p % 2 ^ (p + q) = v % 2 ^ q * 2 ^ p := by
    rw [pow_add, mul_comm (2 ^ p) (2 ^ q), Nat.mul_mod_mul_right]
  have h2 : v % 2 ^ q * 2 ^ p + a < 2 ^ (p + q) := by
    have hv : v % 2 ^ q < 2 ^ q := Nat.mod_lt _ (Nat.pos_pow_of_pos q (by norm_num))
    calc v % 2 ^ q * 2 ^ p + a < v % 2 ^ q * 2 ^ p + 2 ^ p := by omega
      _ = (v % 2 ^ q + 1) * 2 ^ p := by ring
      _ ≤ 2 ^ q * 2 ^ p := Nat.mul_le_mul_right _ (by omega)
      _ = 2 ^ (p + q) := by rw [← pow_add, add_comm]
  calc (v * 2 ^ p + a) % 2 ^ (p + q)
      = (v * 2 ^ p % 2 ^ (p + q) + a % 2 ^ (p + q)) % 2 ^ (p + q) := by
        rw [Nat.add_mod]
    _ = (v % 2 ^ q * 2 ^ p + a) % 2 ^ (p + q) := by
        rw [h1, Nat.mod_eq_of_lt
          (lt_of_lt_of_le ha (Nat.pow_le_pow_right (by norm_num) (by omega)))]
    _ = v % 2 ^ q * 2 ^ p + a := Nat.mod_eq_of_lt h2

theorem modM_mod (x M m : Nat) (h : m ∣ M) : x % M % m = x % m :=
  Nat.mod_mod_of_dvd x h

theorem mul_add_mod_gen (v a m q : Nat) : (v * (m * q) + a) % m = a % m := by
  rw [show v * (m * q) + a = m * (v * q) + a by ring, Nat.mul_add_mod]

theorem mul_add_div_gen (v a k q : Nat) (hk : 0 < k) :
    (v * (k * q) + a) / k = v * q + a / k := by
  rw [show v * (k * q) + a = a + v * q * k by ring, Nat.add_mul_div_right _ _ hk,
    add_comm]

theorem div_mod_gen (x k j : Nat) : x / k % j = x % (k * j) / k :=
  (Nat.mod_mul_right_div_self x k j).symm

theorem mul_add_mod_high_gen (v a B q : Nat) (ha : a < B) (hq : 0 < q) :
    (v * B + a) % (q * B) = v % q * B + a := by
  have hBq : B ≤ q * B := Nat.le_mul_of_pos_left B hq
  have hlt : v % q * B + a < q * B := by
    have h1 : v % q < q := Nat.mod_lt _ hq
    have h2 : (v % q + 1) * B ≤ q * B := Nat.mul_le_mul_right _ (by omega)
    have h3 : v % q * B + a < (v % q + 1) * B := by
      rw [add_mul, one_mul]; omega
    omega
  rw [Nat.add_mod, Nat.mul_mod_mul_right, Nat.mod_eq_of_lt (by omega : a < q * B),
    Nat.mod_eq_of_lt hlt]

theorem extractA (v a : Nat) (ha : a < 256) :
    (v * 256 + a) % 4294967296 / 4 % 64 = a / 4 := by
  rw [div_mod_gen, modM_mod _ _ _ (by norm_num)]
  rw [show (4 * 64 : Nat) = 256 by norm_num,
    show v * 256 + a = v * (256 * 1) + a by ring, mul_add_mod_gen,
    Nat.mod_eq_of_lt ha]

theorem extractB (v a : Nat) (ha : a < 256) :
    (v * 256 + a) % 4294967296 / 16 % 64 = v % 4 * 16 + a / 16 := by
  rw [div_mod_gen, modM_mod _ _ _ (by norm_num)]
  rw [show (16 * 64 : Nat) = 4 * 256 by norm_num, mul_add_mod_high_gen v a 256 4 ha (by norm_num)]
  rw [show v % 4 * 256 + a = v % 4 * (16 * 16) + a by ring,
    mul_add_div_gen _ _ _ _ (by norm_num)]

theorem extractC (v a : Nat) (ha : a < 256) :
    (v * 256 + a) % 4294967296 / 64 % 64 = v % 16 * 4 + a / 64 := by
  rw [div_mod_gen, modM_mod _ _ _ (by norm_num)]
  rw [show (64 * 64 : Nat) = 16 * 256 by norm_num, mul_add_mod_high_gen v a 256 16 ha (by norm_num)]
  rw [show v % 16 * 256 + a = v % 16 * (64 * 4) + a by ring,
    mul_add_div_gen _ _ _ _ (by norm_num)]

theorem extractD (v a : Nat) :
    (v * 256 + a) % 4294967296 % 64 = a % 64 := by
  rw [modM_mod _ _ _ (by norm_num),
    show v * 256 + a = v * (64 * 4) + a by ring, mul_add_mod_gen]

theorem extract_mod4 (v a : Nat) :
    (v * 256 + a) % 4294967296 % 4 = a % 4 := by
  rw [modM_mod _ _ _ (by norm_num),
    show v * 256 + a = v * (4 * 64) + a by ring, mul_add_mod_gen]

theorem extract_mod16 (v a : Nat) :
    (v * 256 + a) % 4294967296 % 16 = a % 16 := by
  rw [modM_mod _ _ _ (by norm_num),
    show v * 256 + a = v * (16 * 16) + a by ring, mul_add_mod_gen]

theorem extract_flush2 (v : Nat) : v * 16 % 4294967296 % 64 = v % 4 * 16 := by
  rw [modM_mod _ _ _ (by norm_num), show (64 : Nat) = 4 * 16 by norm_num,
    Nat.mul_mod_mul_right]

theorem extract_flush4 (v : Nat) : v * 4 % 4294967296 % 64 = v % 16 * 4 := by
  rw [modM_mod _ _ _ (by norm_num), show (64 : Nat) = 16 * 4 by norm_num,
    Nat.mul_mod_mul_right]

theorem extractK0 (w k : Nat) (hk : k < 64) :
    (w * 64 + k) % 4294967296 % 64 = k := by
  rw [modM_mod _ _ _ (by norm_num),
    show w * 64 + k = w * (64 * 1) + k by ring, mul_add_mod_gen,
    Nat.mod_eq_of_lt hk]

theorem extractK4 (w k : Nat) :
    (w * 64 + k) % 4294967296 % 4 = k % 4 := by
  rw [modM_mod _ _ _ (by norm_num),
    show w * 64 + k = w * (4 * 16) + k by ring, mul_add_mod_gen]

theorem extractK16 (w k : Nat) :
    (w * 64 + k) % 4294967296 % 16 = k % 16 := by
  rw [modM_mod _ _ _ (by norm_num),
    show w * 64 + k = w * (16 * 4) + k by ring, mul_add_mod_gen]

theorem extractW16 (w k : Nat) (hk : k < 64) :
    (w * 64 + k) % 4294967296 / 16 % 256 = w % 64 * 4 + k / 16 := by
  rw [div_mod_gen, modM_mod _ _ _ (by norm_num)]
  rw [show (16 * 256 : Nat) = 64 * 64 by norm_num, mul_add_mod_high_gen w k 64 64 hk (by norm_num)]
  rw [show w % 64 * 64 + k = w % 64 * (16 * 4) + k by ring,
    mul_add_div_gen _ _ _ _ (by norm_num)]

theorem extractW4 (w k : Nat) (hk : k < 64) :
    (w * 64 + k) % 4294967296 / 4 % 256 = w % 16 * 16 + k / 4 := by
  rw [div_mod_gen, modM_mod _ _ _ (by norm_num)]
  rw [show (4 * 256 : Nat) = 16 * 64 by norm_num, mul_add_mod_high_gen w k 64 16 hk (by norm_num)]
  rw [show w % 16 * 64 + k = w % 16 * (4 * 16) + k by ring,
    mul_add_div_gen _ _ _ _ (by norm_num)]

theorem extractW256 (w k : Nat) (hk : k < 64) :
    (w * 64 + k) % 4294967296 % 256 = w % 4 * 64 + k := by
  rw [modM_mod _ _ _ (by norm_num),
    show (256 : Nat) = 4 * 64 by norm_num, mul_add_mod_high_gen w k 64 4 hk (by norm_num)]

/-! Unfolding lemmas for the base64 loops. -/

theorem b64emitGo_fuel : ∀ f g v rem io ol, rem ≤ f → rem ≤ g →
    b64emitGo f v rem io ol = b64emitGo g v rem io ol := by
  intro f
  induction f with
  | zero =>
    intro g v rem io ol hf hg
    have hrem : rem = 0 := by omega
    subst hrem
    cases g with
    | zero => rfl
    | succ g =>
      simp only [b64emitGo]
      rw [if_neg (by omega)]
  | succ f ih =>
    intro g v rem io ol hf hg
    cases g with
    | zero =>
      have hrem : rem = 0 := by omega
      subst hrem
      simp only [b64emitGo]
      rw [if_neg (by omega)]
    | succ g =>
      by_cases h6 : 6 ≤ rem
      · simp only [b64emitGo, if_pos h6]
        rw [ih g v (rem - 6) (io + 1) ol (by omega) (by omega)]
      · simp only [b64emitGo, if_neg h6]

theorem b64emit_low (v rem io ol : Nat) (h : rem < 6) :
    b64emit v rem io ol = some ([], rem, io) := by
  cases rem with
  | zero => rfl
  | succ n =>
    simp only [b64emit, b64emitGo]
    rw [if_neg (by omega)]

theorem b64emit_go (v rem io ol : Nat) (h6 : 6 ≤ rem) (hio : io < ol) :
    b64emit v rem io ol =
      (b64emit v (rem - 6) (io + 1) ol).map
        (fun r => (b64enc_at (v / 2 ^ (rem - 6) % 64) :: r.1, r.2.1, r.2.2)) := by
  obtain ⟨m, rfl⟩ : ∃ m, rem = m + 1 := ⟨rem - 1, by omega⟩
  show b64emitGo (m + 1) v (m + 1) io ol = _
  simp only [b64emitGo]
  rw [if_pos h6, if_neg (by omega)]
  rw [b64emitGo_fuel m (m + 1 - 6) v (m + 1 - 6) (io + 1) ol (by omega) (by omega)]
  show (match b64emit v (m + 1 - 6) (io + 1) ol with
    | none => none
    | some (cs, r, j) =>
        some (b64enc_at (v / 2 ^ (m + 1 - 6) % 64) :: cs, r, j)) = _
  rcases h : b64emit v (m + 1 - 6) (io + 1) ol with _ | ⟨cs, r, j⟩ <;> simp

theorem b64emit8 (v io ol : Nat) (hio : io < ol) :
    b64emit v 8 io ol = some ([b64enc_at (v / 4 % 64)], 2, io + 1) := by
  rw [b64emit_go v 8 io ol (by norm_num) hio]
  norm_num [b64emit_low]

theorem b64emit10 (v io ol : Nat) (hio : io < ol) :
    b64emit v 10 io ol = some ([b64enc_at (v / 16 % 64)], 4, io + 1) := by
  rw [b64emit_go v 10 io ol (by norm_num) hio]
  norm_num [b64emit_low]

theorem b64emit12 (v io ol : Nat) (hio : io + 1 < ol) :
    b64emit v 12 io ol =
      some ([b64enc_at (v / 64 % 64), b64enc_at (v % 64)], 0, io + 2) := by
  rw [b64emit_go v 12 io ol (by norm_num) (by omega)]
  rw [b64emit_go v 6 (io + 1) ol (by norm_num) hio]
  norm_num [b64emit_low]

theorem b64pad0 (io ol : Nat) (h : io % 4 = 0) : b64pad io ol = some ([], io) := by
  simp only [b64pad, b64padGo]
  rw [if_pos h]

theorem b64pad2 (io ol : Nat) (h2 : io % 4 = 2) (hio : io + 2 ≤ ol) :
    b64pad io ol = some ([61, 61], io + 2) := by
  simp only [b64pad, b64padGo]
  rw [if_neg (by omega), if_neg (by omega : ¬ ol ≤ io),
    if_neg (by omega : ¬ (io + 1) % 4 = 0), if_neg (by omega : ¬ ol ≤ io + 1),
    if_pos (by omega : (io + 1 + 1) % 4 = 0)]

theorem b64pad3 (io ol : Nat) (h3 : io % 4 = 3) (hio : io + 1 ≤ ol) :
    b64pad io ol = some ([61], io + 1) := by
  simp only [b64pad, b64padGo]
  rw [if_neg (by omega), if_neg (by omega : ¬ ol ≤ io),
    if_pos (by omega : (io + 1) % 4 = 0)]

theorem b64encAux_nil0 (v io ol : Nat) (h4 : io % 4 = 0) (hio : io < ol) :
    b64encAux [] v 0 io ol = some [] := by
  simp only [b64encAux, ne_eq, not_true_eq_false, if_false, reduceIte]
  rw [b64pad0 io ol h4]
  simp [Nat.not_le.mpr hio]

theorem b64encAux_nil_rem2 (v io ol : Nat) (h4 : io % 4 = 1) (hio : io + 4 ≤ ol) :
    b64encAux [] v 2 io ol = some [b64enc_at (v % 4 * 16), 61, 61] := by
  simp only [b64encAux]
  rw [if_pos (by norm_num), if_neg (by omega)]
  rw [b64pad2 (io + 1) ol (by omega) (by omega)]
  simp [extract_flush2, show ¬ ol ≤ io + 1 + 2 by omega]

theorem b64encAux_nil_rem4 (v io ol : Nat) (h4 : io % 4 = 2) (hio : io + 3 ≤ ol) :
    b64encAux [] v 4 io ol = some [b64enc_at (v % 16 * 4), 61] := by
  simp only [b64encAux]
  rw [if_pos (by norm_num), if_neg (by omega)]
  rw [b64pad3 (io + 1) ol (by omega) (by omega)]
  simp [extract_flush4, show ¬ ol ≤ io + 1 + 1 by omega]

/-- Encoding one full 3-byte group emits four alphabet characters whose
six-bit values depend only on the three bytes, and continues at the next
4-character output boundary. -/
theorem b64encAux_chunk3 (a b c : Nat) (t : List Nat) (v io ol : Nat)
    (ha : a < 256) (hb : b < 256) (hc : c < 256) (hio : io + 4 ≤ ol) :
    ∃ v3, b64encAux (a :: b :: c :: t) v 0 io ol =
      (b64encAux t v3 0 (io + 4) ol).map
        (fun l => b64enc_at (a / 4) :: b64enc_at (a % 4 * 16 + b / 16) ::
                  b64enc_at (b % 16 * 4 + c / 64) :: b64enc_at (c % 64) :: l) := by
  refine ⟨((((v * 256 + a) % 4294967296) * 256 + b) % 4294967296 * 256 + c) % 4294967296, ?_⟩
  simp only [b64encAux, Nat.mod_eq_of_lt ha, Nat.mod_eq_of_lt hb, Nat.mod_eq_of_lt hc,
    Nat.zero_add, Nat.reducePow]
  rw [b64emit8 _ io ol (by omega)]
  dsimp only
  simp only [Nat.reduceAdd]
  rw [b64emit10 _ (io + 1) ol (by omega)]
  dsimp only
  simp only [Nat.reduceAdd]
  rw [b64emit12 _ (io + 2) ol (by omega)]
  dsimp only
  simp only [extractA v a ha, extractB _ b hb, extractC _ c hc, extractD,
    extract_mod4, extract_mod16, show io + 2 + 2 = io + 4 from by omega]
  rcases hrec :
      b64encAux t
        (((((v * 256 + a) % 4294967296) * 256 + b) % 4294967296 * 256 + c) % 4294967296)
        0 (io + 4) ol with _ | rest
  · simp
  · simp

/-- Facts about the alphabet tables: an encoded character is not whitespace,
is not the padding byte 0x3D, and decodes back to its six-bit value. -/
theorem b64_table_facts : ∀ k, k < 64 →
    c_isspace (b64enc_at k) = false ∧ (b64enc_at k == 61) = false ∧
    (b64dec_at (b64enc_at k) == 255) = false ∧ b64dec_at (b64enc_at k) = k := by
  decide

/-- Decoding four alphabet characters emits the three bytes determined by
their six-bit values and continues at the next 3-byte output boundary. -/
theorem b64decAux_chunk4 (k1 k2 k3 k4 : Nat) (t : List Nat) (w jo dl : Nat)
    (h1 : k1 < 64) (h2 : k2 < 64) (h3 : k3 < 64) (h4 : k4 < 64) (hjo : jo + 3 ≤ dl) :
    ∃ w4, b64decAux (b64enc_at k1 :: b64enc_at k2 :: b64enc_at k3 ::
        b64enc_at k4 :: t) w 0 jo dl =
      (b64decAux t w4 0 (jo + 3) dl).map
        (fun l => (k1 * 4 + k2 / 16) :: (k2 % 16 * 16 + k3 / 4) ::
                  (k3 % 4 * 64 + k4) :: l) := by
  obtain ⟨hs1, he1, hf1, hd1⟩ := b64_table_facts k1 h1
  obtain ⟨hs2, he2, hf2, hd2⟩ := b64_table_facts k2 h2
  obtain ⟨hs3, he3, hf3, hd3⟩ := b64_table_facts k3 h3
  obtain ⟨hs4, he4, hf4, hd4⟩ := b64_table_facts k4 h4
  refine ⟨(((((w * 64 + k1) % 4294967296) * 64 + k2) % 4294967296 * 64 + k3)
    % 4294967296 * 64 + k4) % 4294967296, ?_⟩
  simp only [b64decAux, hs1, he1, hf1, hd1, hs2, he2, hf2, hd2, hs3, he3, hf3, hd3,
    hs4, he4, hf4, hd4, Bool.false_eq_true, if_false, Nat.reducePow, Nat.reduceAdd,
    Nat.zero_add, Nat.reduceLeDiff, Nat.reduceSub]
  have hb1 : (k1 == 255) = false := by simp only [beq_eq_false_iff_ne]; omega
  have hb2 : (k2 == 255) = false := by simp only [beq_eq_false_iff_ne]; omega
  have hb3 : (k3 == 255) = false := by simp only [beq_eq_false_iff_ne]; omega
  have hb4 : (k4 == 255) = false := by simp only [beq_eq_false_iff_ne]; omega
  simp only [hb1, hb2, hb3, hb4, Bool.false_eq_true, if_false, if_true]
  rw [if_neg (by omega : ¬ dl ≤ jo), if_neg (by omega : ¬ dl ≤ jo + 1),
    if_neg (by omega : ¬ dl ≤ jo + 1 + 1)]
  simp only [extractK0 w k1 h1, extractK4, extractK16,
    extractW16 _ k2 h2, extractW4 _ k3 h3, extractW256 _ k4 h4,
    show jo + 1 + 1 + 1 = jo + 3 from by omega]
  rcases hrec :
      b64decAux t
        ((((((w * 64 + k1) % 4294967296) * 64 + k2) % 4294967296 * 64 + k3)
          % 4294967296 * 64 + k4) % 4294967296)
        0 (jo + 3) dl with _ | rest
  · simp [extractW256 _ k4 h4, extractK4]
  · simp [extractW256 _ k4 h4, extractK4]

/-- Encoding and decoding a final 1-byte group: two characters and two
padding bytes; the decoder stops at the first 0x3D. -/
theorem b64_tail1 (a v w io jo ol dl : Nat) (ha : a < 256) (h4 : io % 4 = 0)
    (hol : io + 5 ≤ ol) (hdl : jo + 1 ≤ dl) :
    b64encAux [a] v 0 io ol =
      some [b64enc_at (a / 4), b64enc_at (a % 4 * 16), 61, 61] ∧
    b64decAux [b64enc_at (a / 4), b64enc_at (a % 4 * 16), 61, 61] w 0 jo dl =
      some [a] := by
  have hk1 : a / 4 < 64 := by omega
  have hk2 : a % 4 * 16 < 64 := by omega
  constructor
  · simp only [b64encAux, Nat.mod_eq_of_lt ha, Nat.zero_add, Nat.reducePow,
      Nat.reduceSub]
    rw [b64emit8 _ io ol (by omega)]
    dsimp only
    rw [if_pos (by norm_num : (2 : Nat) ≠ 0), if_neg (by omega : ¬ ol ≤ io + 1),
      b64pad2 (io + 1 + 1) ol (by omega) (by omega)]
    dsimp only
    rw [if_neg (by omega : ¬ ol ≤ io + 1 + 1 + 2)]
    simp [extractA v a ha, extract_flush2, extract_mod4]
    congr 1
    omega
  · obtain ⟨hs1, he1, hf1, hd1⟩ := b64_table_facts _ hk1
    obtain ⟨hs2, he2, hf2, hd2⟩ := b64_table_facts _ hk2
    simp only [b64decAux, hs1, he1, hf1, hd1, hs2, he2, hf2, hd2,
      Bool.false_eq_true, if_false, Nat.reducePow, Nat.reduceAdd, Nat.zero_add,
      Nat.reduceLeDiff, Nat.reduceSub, Nat.reduceBEq,
      show c_isspace 61 = false from by decide, show (61 == 61) = true from by decide,
      if_true, b64decFin]
    have hne1 : ((a / 4 : Nat) == 255) = false := by
      simp only [beq_eq_false_iff_ne]; omega
    have hne2 : ((a % 4 * 16 : Nat) == 255) = false := by
      simp only [beq_eq_false_iff_ne]; omega
    simp only [hne1, hne2, Bool.false_eq_true, if_false]
    rw [if_neg (by omega : ¬ dl ≤ jo)]
    simp only [extractW16 _ _ hk2, extractK0 w _ hk1]
    simp only [Option.some.injEq, List.cons.injEq, and_true]
    omega

/-- Encoding and decoding a final 2-byte group: three characters and one
padding byte. -/
theorem b64_tail2 (a b v w io jo ol dl : Nat) (ha : a < 256) (hb : b < 256)
    (h4 : io % 4 = 0) (hol : io + 5 ≤ ol) (hdl : jo + 2 ≤ dl) :
    b64encAux [a, b] v 0 io ol =
      some [b64enc_at (a / 4), b64enc_at (a % 4 * 16 + b / 16),
            b64enc_at (b % 16 * 4), 61] ∧
    b64decAux [b64enc_at (a / 4), b64enc_at (a % 4 * 16 + b / 16),
               b64enc_at (b % 16 * 4), 61] w 0 jo dl = some [a, b] := by
  have hk1 : a / 4 < 64 := by omega
  have hk2 : a % 4 * 16 + b / 16 < 64 := by omega
  have hk3 : b % 16 * 4 < 64 := by omega
  constructor
  · simp only [b64encAux, Nat.mod_eq_of_lt ha, Nat.mod_eq_of_lt hb, Nat.zero_add,
      Nat.reducePow, Nat.reduceSub]
    rw [b64emit8 _ io ol (by omega)]
    dsimp only
    simp only [Nat.reduceAdd]
    rw [b64emit10 _ (io + 1) ol (by omega)]
    dsimp only
    rw [if_pos (by norm_num : (4 : Nat) ≠ 0), if_neg (by omega : ¬ ol ≤ io + 1 + 1),
      b64pad3 (io + 1 + 1 + 1) ol (by omega) (by omega)]
    dsimp only
    rw [if_neg (by omega : ¬ ol ≤ io + 1 + 1 + 1 + 1)]
    simp [extractA v a ha, extractB _ b hb, extract_flush4, extract_mod4,
      extract_mod16]
    congr 1
    omega
  · obtain ⟨hs1, he1, hf1, hd1⟩ := b64_table_facts _ hk1
    obtain ⟨hs2, he2, hf2, hd2⟩ := b64_table_facts _ hk2
    obtain ⟨hs3, he3, hf3, hd3⟩ := b64_table_facts _ hk3
    simp only [b64decAux, hs1, he1, hf1, hd1, hs2, he2, hf2, hd2, hs3, he3, hf3, hd3,
      Bool.false_eq_true, if_false, Nat.reducePow, Nat.reduceAdd, Nat.zero_add,
      Nat.reduceLeDiff, Nat.reduceSub,
      show c_isspace 61 = false from by decide, show (61 == 61) = true from by decide,
      if_true, b64decFin]
    have hne1 : ((a / 4 : Nat) == 255) = false := by
      simp only [beq_eq_false_iff_ne]; omega
    have hne2 : ((a % 4 * 16 + b / 16 : Nat) == 255) = false := by
      simp only [beq_eq_false_iff_ne]; omega
    have hne3 : ((b % 16 * 4 : Nat) == 255) = false := by
      simp only [beq_eq_false_iff_ne]; omega
    simp only [hne1, hne2, hne3, Bool.false_eq_true, if_false]
    rw [if_neg (by omega : ¬ dl ≤ jo), if_neg (by omega : ¬ dl ≤ jo + 1)]
    simp only [extractW16 _ _ hk2, extractK0 w _ hk1, extractW4 _ _ hk3, extractK16]
    simp only [Option.some.injEq, List.cons.injEq, and_true]
    constructor
    · omega
    · omega

/-- Round trip of the base64 loops, generalized over the accumulators and
output cursors: encoding from a 4-aligned output position succeeds in a
buffer with room for the characters and the NUL, produces exactly
4 * ceil(n / 3) characters, and decoding them (padding ending the input)
recovers the original bytes. -/
theorem b64_roundAux (n : Nat) : ∀ x : List Nat, x.length ≤ n →
    (∀ b ∈ x, b < 256) →
    ∀ v w io jo ol dl : Nat, io % 4 = 0 →
    io + (4 * ((x.length + 2) / 3) + 1) ≤ ol → jo + x.length ≤ dl →
    ∃ e, b64encAux x v 0 io ol = some e ∧ e.length = 4 * ((x.length + 2) / 3) ∧
      b64decAux e w 0 jo dl = some x := by
  induction n with
  | zero =>
    intro x hx hbytes v w io jo ol dl h4 hol hdl
    match x with
    | [] =>
      refine ⟨[], ?_, by simp, by simp [b64decAux, b64decFin]⟩
      exact b64encAux_nil0 v io ol h4 (by simp at hol; omega)
    | a :: t => simp at hx
  | succ n ih =>
    intro x hx hbytes v w io jo ol dl h4 hol hdl
    match x with
    | [] =>
      refine ⟨[], ?_, by simp, by simp [b64decAux, b64decFin]⟩
      exact b64encAux_nil0 v io ol h4 (by simp at hol; omega)
    | [a] =>
      have ha : a < 256 := hbytes a (by simp)
      simp only [List.length_cons, List.length_nil] at hol hdl ⊢
      obtain ⟨he, hd⟩ := b64_tail1 a v w io jo ol dl ha h4 (by omega) (by omega)
      exact ⟨_, he, by simp, hd⟩
    | [a, b] =>
      have ha : a < 256 := hbytes a (by simp)
      have hb : b < 256 := hbytes b (by simp)
      simp only [List.length_cons, List.length_nil] at hol hdl ⊢
      obtain ⟨he, hd⟩ := b64_tail2 a b v w io jo ol dl ha hb h4 (by omega) (by omega)
      exact ⟨_, he, by simp, hd⟩
    | a :: b :: c :: t =>
      have ha : a < 256 := hbytes a (by simp)
      have hb : b < 256 := hbytes b (by simp)
      have hc : c < 256 := hbytes c (by simp)
      have hbt : ∀ y ∈ t, y < 256 := fun y hy => hbytes y (by simp [hy])
      have hlen : (a :: b :: c :: t).length = t.length + 3 := by simp
      have hdiv : ((a :: b :: c :: t).length + 2) / 3 = (t.length + 2) / 3 + 1 := by
        rw [hlen]; omega
      obtain ⟨v3, hench⟩ := b64encAux_chunk3 a b c t v io ol ha hb hc
        (by rw [hdiv] at hol; omega)
      have hxt : t.length ≤ n := by simp at hx; omega
      obtain ⟨e', he', hlen', _⟩ := ih t hxt hbt v3 0 (io + 4) (jo + 3) ol dl
        (by omega) (by rw [hdiv] at hol; omega) (by rw [hlen] at hdl; omega)
      have hk1 : a / 4 < 64 := by omega
      have hk2 : a % 4 * 16 + b / 16 < 64 := by omega
      have hk3 : b % 16 * 4 + c / 64 < 64 := by omega
      have hk4 : c % 64 < 64 := by omega
      obtain ⟨w4, hdec⟩ := b64decAux_chunk4 (a / 4) (a % 4 * 16 + b / 16)
        (b % 16 * 4 + c / 64) (c % 64) e' w jo dl hk1 hk2 hk3 hk4
        (by rw [hlen] at hdl; omega)
      obtain ⟨e2, he2, hlen2, hd2⟩ := ih t hxt hbt v3 w4 (io + 4) (jo + 3) ol dl
        (by omega) (by rw [hdiv] at hol; omega) (by rw [hlen] at hdl; omega)
      have hee : e2 = e' := by
        rw [he'] at he2
        exact (Option.some.inj he2).symm
      rw [hee] at hd2
      refine ⟨b64enc_at (a / 4) :: b64enc_at (a % 4 * 16 + b / 16) ::
        b64enc_at (b % 16 * 4 + c / 64) :: b64enc_at (c % 64) :: e', ?_, ?_, ?_⟩
      · rw [hench, he']
        rfl
      · simp only [List.length_cons, hlen']
        omega
      · rw [hdec, hd2]
        simp only [Option.map_some']
        congr 1
        have e1 : a / 4 * 4 + (a % 4 * 16 + b / 16) / 16 = a := by omega
        have e2b : (a % 4 * 16 + b / 16) % 16 * 16 + (b % 16 * 4 + c / 64) / 4 = b := by
          omega
        have e3 : (b % 16 * 4 + c / 64) % 4 * 64 + c % 64 = c := by omega
        rw [e1, e2b, e3]

theorem sha1_digest_length (msg : List Nat) : (sha1_digest msg).length = 20 := by
  simp [sha1_digest, sha1_result, be32]

theorem sha1_digest_bytes (msg : List Nat) : ∀ b ∈ sha1_digest msg, b < 256 := by
  intro b hb
  simp only [sha1_digest, sha1_result, be32, List.append_assoc, List.mem_append,
    List.mem_cons, List.not_mem_nil, or_false] at hb
  have h255 : ∀ w : Nat, w &&& 255 < 256 := fun w =>
    Nat.lt_succ_of_le (Nat.and_le_right)
  rcases hb with ⟨h | h | h | h⟩ | ⟨h | h | h | h⟩ | ⟨h | h | h | h⟩ |
    ⟨h | h | h | h⟩ | h | h | h | h <;> subst h <;> exact h255 _

/-- nn_ws_handshake_hash_key always succeeds into a buffer of at least
ACCEPT_KEY_LEN + 1 bytes and writes exactly 28 characters. -/
theorem hash_key_total (key : List Nat) (ol : Nat) (h : 29 ≤ ol) :
    ∃ out, nn_ws_handshake_hash_key key ol = some out ∧ out.length = 28 := by
  obtain ⟨e, he, hlen, _⟩ := b64_roundAux 20
    (sha1_digest (key ++ NN_WS_HANDSHAKE_MAGIC_GUID))
    (by rw [sha1_digest_length]) (sha1_digest_bytes _) 0 0 0 0 ol 20
    (by norm_num) (by rw [sha1_digest_length]; omega)
    (by rw [sha1_digest_length])
  refine ⟨e, ?_, ?_⟩
  · simpa [nn_ws_handshake_hash_key, base64_encode] using he
  · rw [hlen, sha1_digest_length]

set_option maxRecDepth 10000 in
/-- C1: For every client Sec-WebSocket-Key value, nn_ws_handshake_hash_key
feeds the key bytes followed by the 36-byte magic GUID
258EAFA5-E914-47DA-95CA-C5AB0DC85B11 to SHA-1 and base64-encodes the 20-byte
digest, its result length is always exactly 28 (whenever the output buffer
has room for the 28 characters and the NUL), and for the RFC 6455 test key
dGhlIHNhbXBsZSBub25jZQ== the derived accept key is
s3pPLMBiTxaQ9kYGzzhZRbK+xOo=. -/
theorem c1_accept_key_derivation :
    (∀ (key : List Nat) (hl : Nat),
      nn_ws_handshake_hash_key key hl =
        base64_encode (sha1_digest (key ++ NN_WS_HANDSHAKE_MAGIC_GUID)) hl) ∧
    (∀ (key : List Nat) (hl : Nat), NN_WS_HANDSHAKE_ACCEPT_KEY_LEN + 1 ≤ hl →
      ∃ out, nn_ws_handshake_hash_key key hl = some out ∧
        out.length = NN_WS_HANDSHAKE_ACCEPT_KEY_LEN) ∧
    nn_ws_handshake_hash_key (strBytes ("dGhlIHNhbXBsZSBub25jZQ=="))
        (NN_WS_HANDSHAKE_ACCEPT_KEY_LEN + 1) =
      some (strBytes ("s3pPLMBiTxaQ9kYGzzhZRbK+xOo=")) := by
  refine ⟨fun key hl => rfl, fun key hl h => hash_key_total key hl h, ?_⟩
  decide

/-- Witness for C1: at the empty key and a 29-byte buffer, the hypothesis
holds and the derivation succeeds with a 28-character result. -/
theorem c1_accept_key_derivation_witness :
    ∃ out, nn_ws_handshake_hash_key [] (NN_WS_HANDSHAKE_ACCEPT_KEY_LEN + 1) =
      some out ∧ out.length = NN_WS_HANDSHAKE_ACCEPT_KEY_LEN :=
  c1_accept_key_derivation.2.1 [] (NN_WS_HANDSHAKE_ACCEPT_KEY_LEN + 1)
    (by norm_num)

/-- C8: For every byte string x and output buffers large enough for the
results (4 ceil(n/3) characters plus the NUL for the encoder, n bytes for
the decoder), base64_decode applied to the output of base64_encode x writes
back exactly the bytes of x, the trailing 0x3D padding being treated as end
of input; the decoder returns the length of x since it returns exactly the
bytes it wrote. -/
theorem c8_base64_roundtrip :
    ∀ x : List Nat, (∀ b ∈ x, b < 256) →
    ∀ elen dlen : Nat, 4 * ((x.length + 2) / 3) + 1 ≤ elen → x.length ≤ dlen →
    ∃ e, base64_encode x elen = some e ∧ e.length = 4 * ((x.length + 2) / 3) ∧
      base64_decode e dlen = some x := by
  intro x hb elen dlen h1 h2
  obtain ⟨e, he, hlen, hd⟩ := b64_roundAux x.length x (le_refl _) hb 0 0 0 0
    elen dlen (by norm_num) (by omega) (by omega)
  exact ⟨e, he, hlen, hd⟩

/-- Witness for C8: round trip at the concrete bytes [72, 105, 33]. -/
theorem c8_base64_roundtrip_witness :
    ∃ e, base64_encode [72, 105, 33] 5 = some e ∧ e.length = 4 ∧
      base64_decode e 3 = some [72, 105, 33] := by
  have h := c8_base64_roundtrip [72, 105, 33] (by decide) 5 3 (by norm_num)
    (by norm_num)
  simpa using h

/-- C2: After the header block is fully parsed, the validation of
nn_ws_handshake_parse_client_opening (nn_ws_validate_opening) runs its
checks in a fixed order where the first failure wins and sets
response_code: any of host, upgrade, conn, key, version missing gives
INVALID with WSPROTO; otherwise version not equal to 13 (case-insensitive)
gives INVALID with WSVERSION; otherwise upgrade not equal to websocket
(case-insensitive) gives INVALID with WSPROTO; otherwise conn not equal to
Upgrade (case-insensitive) gives INVALID with WSPROTO. -/
theorem c2_validation_order (st : WsHandshake) (isp : WsSp → Bool) :
    ((st.host = none ∨ st.upgrade = none ∨ st.conn = none ∨ st.key = none ∨
        st.version = none) →
      nn_ws_validate_opening st isp =
        ({ st with response_code := NN_WS_HANDSHAKE_RESPONSE_WSPROTO },
          NN_WS_HANDSHAKE_INVALID)) ∧
    (st.host ≠ none → st.upgrade ≠ none → st.conn ≠ none → st.key ≠ none →
      st.version ≠ none →
      nn_ws_validate_value (strBytes ("13")) (st.version.getD []) true = false →
      nn_ws_validate_opening st isp =
        ({ st with response_code := NN_WS_HANDSHAKE_RESPONSE_WSVERSION },
          NN_WS_HANDSHAKE_INVALID)) ∧
    (st.host ≠ none → st.upgrade ≠ none → st.conn ≠ none → st.key ≠ none →
      st.version ≠ none →
      nn_ws_validate_value (strBytes ("13")) (st.version.getD []) true = true →
      nn_ws_validate_value (strBytes ("websocket")) (st.upgrade.getD []) true = false →
      nn_ws_validate_opening st isp =
        ({ st with response_code := NN_WS_HANDSHAKE_RESPONSE_WSPROTO },
          NN_WS_HANDSHAKE_INVALID)) ∧
    (st.host ≠ none → st.upgrade ≠ none → st.conn ≠ none → st.key ≠ none →
      st.version ≠ none →
      nn_ws_validate_value (strBytes ("13")) (st.version.getD []) true = true →
      nn_ws_validate_value (strBytes ("websocket")) (st.upgrade.getD []) true = true →
      nn_ws_validate_value (strBytes ("Upgrade")) (st.conn.getD []) true = false →
      nn_ws_validate_opening st isp =
        ({ st with response_code := NN_WS_HANDSHAKE_RESPONSE_WSPROTO },
          NN_WS_HANDSHAKE_INVALID)) := by
  refine ⟨?_, ?_, ?_, ?_⟩
  · intro h
    unfold nn_ws_validate_opening
    rw [if_pos h]
  · intro h1 h2 h3 h4 h5 hv
    unfold nn_ws_validate_opening
    rw [if_neg (by simp [h1, h2, h3, h4, h5]), if_pos hv]
  · intro h1 h2 h3 h4 h5 hv hu
    unfold nn_ws_validate_opening
    rw [if_neg (by simp [h1, h2, h3, h4, h5]), if_neg (by simp [hv]), if_pos hu]
  · intro h1 h2 h3 h4 h5 hv hu hc
    unfold nn_ws_validate_opening
    rw [if_neg (by simp [h1, h2, h3, h4, h5]), if_neg (by simp [hv]),
      if_neg (by simp [hu]), if_pos hc]

/-- Witness for C2: the all-empty record is missing every header, so the
first check fires with WSPROTO. -/
theorem c2_validation_order_witness :
    nn_ws_validate_opening wsHs0 (fun _ => true) =
      ({ wsHs0 with response_code := NN_WS_HANDSHAKE_RESPONSE_WSPROTO },
        NN_WS_HANDSHAKE_INVALID) :=
  (c2_validation_order wsHs0 (fun _ => true)).1 (Or.inl rfl)

/-- C3: After the RFC 6455 checks pass, a present Sec-WebSocket-Protocol
value is looked up (case-insensitively, first match wins) in the ten-entry
SP map: found and accepted by the peer check gives VALID with OK, found but
rejected gives INVALID with NOTPEER, not found gives INVALID with
UNKNOWNTYPE; with no protocol header PAIR is assumed, giving VALID with OK
when the peer check accepts PAIR and INVALID with NOTPEER otherwise. -/
theorem c3_sp_map_negotiation (st : WsHandshake) (isp : WsSp → Bool)
    (h1 : st.host ≠ none) (h2 : st.upgrade ≠ none) (h3 : st.conn ≠ none)
    (h4 : st.key ≠ none) (h5 : st.version ≠ none)
    (hv : nn_ws_validate_value (strBytes ("13")) (st.version.getD []) true = true)
    (hu : nn_ws_validate_value (strBytes ("websocket")) (st.upgrade.getD []) true = true)
    (hc : nn_ws_validate_value (strBytes ("Upgrade")) (st.conn.getD []) true = true) :
    NN_WS_HANDSHAKE_SP_MAP.length = 10 ∧
    (∀ p sp, st.protocol = some p →
      spMapLookup NN_WS_HANDSHAKE_SP_MAP p = some sp →
      nn_ws_validate_opening st isp =
        (if isp sp then
          ({ st with response_code := NN_WS_HANDSHAKE_RESPONSE_OK },
            NN_WS_HANDSHAKE_VALID)
        else
          ({ st with response_code := NN_WS_HANDSHAKE_RESPONSE_NOTPEER },
            NN_WS_HANDSHAKE_INVALID))) ∧
    (∀ p, st.protocol = some p →
      spMapLookup NN_WS_HANDSHAKE_SP_MAP p = none →
      nn_ws_validate_opening st isp =
        ({ st with response_code := NN_WS_HANDSHAKE_RESPONSE_UNKNOWNTYPE },
          NN_WS_HANDSHAKE_INVALID)) ∧
    (st.protocol = none →
      nn_ws_validate_opening st isp =
        (if isp .pair then
          ({ st with response_code := NN_WS_HANDSHAKE_RESPONSE_OK },
            NN_WS_HANDSHAKE_VALID)
        else
          ({ st with response_code := NN_WS_HANDSHAKE_RESPONSE_NOTPEER },
            NN_WS_HANDSHAKE_INVALID))) := by
  have hpre : nn_ws_validate_opening st isp =
      match st.protocol with
      | some p =>
        match spMapLookup NN_WS_HANDSHAKE_SP_MAP p with
        | some sp =>
          if isp sp then
            ({ st with response_code := NN_WS_HANDSHAKE_RESPONSE_OK },
              NN_WS_HANDSHAKE_VALID)
          else
            ({ st with response_code := NN_WS_HANDSHAKE_RESPONSE_NOTPEER },
              NN_WS_HANDSHAKE_INVALID)
        | none =>
          ({ st with response_code := NN_WS_HANDSHAKE_RESPONSE_UNKNOWNTYPE },
            NN_WS_HANDSHAKE_INVALID)
      | none =>
        if isp .pair then
          ({ st with response_code := NN_WS_HANDSHAKE_RESPONSE_OK },
            NN_WS_HANDSHAKE_VALID)
        else
          ({ st with response_code := NN_WS_HANDSHAKE_RESPONSE_NOTPEER },
            NN_WS_HANDSHAKE_INVALID) := by
    unfold nn_ws_validate_opening
    rw [if_neg (by simp [h1, h2, h3, h4, h5]), if_neg (by simp [hv]),
      if_neg (by simp [hu]), if_neg (by simp [hc])]
  refine ⟨rfl, ?_, ?_, ?_⟩
  · intro p sp hp hsp
    rw [hpre, hp]
    dsimp only
    rw [hsp]
  · intro p hp hsp
    rw [hpre, hp]
    dsimp only
    rw [hsp]
  · intro hp
    rw [hpre, hp]

/-- Witness for C3: a record carrying the x-nanomsg-pair token, with a peer
check accepting everything, is negotiated to OK and VALID. -/
theorem c3_sp_map_negotiation_witness :
    nn_ws_validate_opening
      { wsHs0 with host := some [97], upgrade := some (strBytes ("websocket")),
                   conn := some (strBytes ("Upgrade")), key := some [107],
                   version := some (strBytes ("13")),
                   protocol := some (strBytes ("x-nanomsg-pair")) }
      (fun _ => true) =
    ({ wsHs0 with host := some [97], upgrade := some (strBytes ("websocket")),
                  conn := some (strBytes ("Upgrade")), key := some [107],
                  version := some (strBytes ("13")),
                  protocol := some (strBytes ("x-nanomsg-pair")),
                  response_code := NN_WS_HANDSHAKE_RESPONSE_OK },
      NN_WS_HANDSHAKE_VALID) := by
  have h := (c3_sp_map_negotiation
    { wsHs0 with host := some [97], upgrade := some (strBytes ("websocket")),
                 conn := some (strBytes ("Upgrade")), key := some [107],
                 version := some (strBytes ("13")),
                 protocol := some (strBytes ("x-nanomsg-pair")) }
    (fun _ => true) (by simp) (by simp) (by simp) (by simp) (by simp)
    (by decide) (by decide) (by decide)).2.1
    (strBytes ("x-nanomsg-pair")) .pair rfl (by decide)
  simpa using h

/-- A CRLFCRLF-free buffer makes the request parser return RECV_MORE before
it touches any field of the record. -/
theorem parse_no_termseq (st : WsHandshake) (isp : WsSp → Bool) (buf : List Nat)
    (h : strstrIdx buf NN_WS_HANDSHAKE_TERMSEQ = none) :
    nn_ws_handshake_parse_client_opening st isp buf =
      some (st, NN_WS_HANDSHAKE_RECV_MORE) := by
  simp [nn_ws_handshake_parse_client_opening, h]

/-- C9: Failed matches change nothing observable: nn_ws_match_token and
nn_ws_match_value leave the subject cursor unchanged whenever they return
NOMATCH, and on a receive buffer containing no CRLFCRLF the request parser
returns RECV_MORE with the record (all parsed header slices) untouched. -/
theorem c9_no_mutation_on_failure :
    (∀ (token subj : List Nat) (ci sp : Bool),
      (nn_ws_match_token token subj ci sp).1 = NN_WS_HANDSHAKE_NOMATCH →
      (nn_ws_match_token token subj ci sp).2 = subj) ∧
    (∀ (termseq subj : List Nat) (il it : Bool),
      (nn_ws_match_value termseq subj il it).1 = NN_WS_HANDSHAKE_NOMATCH →
      (nn_ws_match_value termseq subj il it).2.1 = subj) ∧
    (∀ (st : WsHandshake) (isp : WsSp → Bool) (buf : List Nat),
      strstrIdx buf NN_WS_HANDSHAKE_TERMSEQ = none →
      nn_ws_handshake_parse_client_opening st isp buf =
        some (st, NN_WS_HANDSHAKE_RECV_MORE)) := by
  refine ⟨?_, ?_, fun st isp buf h => parse_no_termseq st isp buf h⟩
  · intro token subj ci sp h
    simp only [nn_ws_match_token] at h ⊢
    rcases hm : matchTokChars token
        (if sp then subj.dropWhile (fun c => c == 32) else subj) ci with _ | rest
    · rfl
    · rw [hm] at h
      simp [NN_WS_HANDSHAKE_MATCH, NN_WS_HANDSHAKE_NOMATCH] at h
  · intro termseq subj il it h
    simp only [nn_ws_match_value] at h ⊢
    rcases hm : strstrIdx subj termseq with _ | k
    · rfl
    · rw [hm] at h
      dsimp only at h
      split at h
      · split at h <;> simp [NN_WS_HANDSHAKE_MATCH, NN_WS_HANDSHAKE_NOMATCH] at h
      · split at h <;> simp [NN_WS_HANDSHAKE_MATCH, NN_WS_HANDSHAKE_NOMATCH] at h

/-- Witness for C9: the matchers fail without moving the cursor on a
concrete subject, and the parser leaves a concrete record alone on a
terminator-free buffer. -/
theorem c9_no_mutation_on_failure_witness :
    (nn_ws_match_token (strBytes ("GET ")) (strBytes ("PUT /")) false false).2 =
      strBytes ("PUT /") ∧
    (nn_ws_match_value NN_WS_HANDSHAKE_CRLF (strBytes ("abc")) true true).2.1 =
      strBytes ("abc") ∧
    nn_ws_handshake_parse_client_opening wsHs0 (fun _ => true)
        (strBytes ("GET / HTTP/1.1")) =
      some (wsHs0, NN_WS_HANDSHAKE_RECV_MORE) := by
  refine ⟨?_, ?_, ?_⟩
  · exact c9_no_mutation_on_failure.1 (strBytes ("GET ")) (strBytes ("PUT /"))
      false false (by decide)
  · exact c9_no_mutation_on_failure.2.1 NN_WS_HANDSHAKE_CRLF (strBytes ("abc"))
      true true (by decide)
  · exact c9_no_mutation_on_failure.2.2 wsHs0 (fun _ => true)
      (strBytes ("GET / HTTP/1.1")) (by decide)

set_option maxRecDepth 4000 in
/-- C5 (failing input): the 151-byte first chunk of 147 0x41 bytes followed
by CRLFCRLF has exactly the initial server recv_len, the parser returns
RECV_MORE on it (the request line fails to parse) even though the full
CRLFCRLF is present, the backward scan then matches all four terminator
bytes, and the handler hits the nn_assert (i < NN_WS_HANDSHAKE_TERMSEQ_LEN)
abort instead of computing a next chunk. -/
theorem c5_backscan_assertion_fails :
    c5buf.length = serverMinRecvLen ∧
    (strstrIdx c5buf NN_WS_HANDSHAKE_TERMSEQ).isSome = true ∧
    nn_ws_handshake_parse_client_opening wsHs0 (fun _ => true) c5buf =
      some (wsHs0, NN_WS_HANDSHAKE_RECV_MORE) ∧
    termseqScan c5buf = 4 ∧
    nn_ws_srv_step (fun _ => true)
      { hs := wsHs0, data := [], recv_len := serverMinRecvLen } c5buf =
      .crash := by
  decide

/-- The response validation chain succeeds exactly when every slice was
captured and every comparison passes. -/
theorem validate_response_valid_iff (st : WsHandshake) :
    nn_ws_validate_response st = NN_WS_HANDSHAKE_VALID ↔
      (st.status_code ≠ none ∧ st.upgrade ≠ none ∧ st.conn ≠ none ∧
        st.accept_key ≠ none ∧
        nn_ws_validate_value (strBytes ("101")) (st.status_code.getD []) true = true ∧
        nn_ws_validate_value (strBytes ("websocket")) (st.upgrade.getD []) true = true ∧
        nn_ws_validate_value (strBytes ("Upgrade")) (st.conn.getD []) true = true ∧
        nn_ws_validate_value st.expected_accept_key (st.accept_key.getD []) true = true) := by
  unfold nn_ws_validate_response
  split_ifs with h1 h2 h3 h4 h5
  · refine iff_of_false (by decide) ?_
    rintro ⟨hs, hu, hc, ha, _⟩
    rcases h1 with h | h | h | h
    · exact hs h
    · exact hu h
    · exact hc h
    · exact ha h
  · refine iff_of_false (by decide) ?_
    rintro ⟨_, _, _, _, hv, _⟩
    rw [h2] at hv
    exact absurd hv (by decide)
  · refine iff_of_false (by decide) ?_
    rintro ⟨_, _, _, _, _, hv, _⟩
    rw [h3] at hv
    exact absurd hv (by decide)
  · refine iff_of_false (by decide) ?_
    rintro ⟨_, _, _, _, _, _, hv, _⟩
    rw [h4] at hv
    exact absurd hv (by decide)
  · refine iff_of_false (by decide) ?_
    rintro ⟨_, _, _, _, _, _, _, hv⟩
    rw [h5] at hv
    exact absurd hv (by decide)
  · push_neg at h1
    refine iff_of_true rfl
      ⟨h1.1, h1.2.1, h1.2.2.1, h1.2.2.2, ?_, ?_, ?_, ?_⟩
    · revert h2
      cases nn_ws_validate_value (strBytes ("101")) (st.status_code.getD []) true <;>
        simp
    · revert h3
      cases nn_ws_validate_value (strBytes ("websocket")) (st.upgrade.getD []) true <;>
        simp
    · revert h4
      cases nn_ws_validate_value (strBytes ("Upgrade")) (st.conn.getD []) true <;>
        simp
    · revert h5
      cases nn_ws_validate_value st.expected_accept_key (st.accept_key.getD []) true <;>
        simp

/-- C4: nn_ws_handshake_parse_server_response returns VALID exactly when a
CRLFCRLF is present, the parsing phase finishes with no bytes left after
the final CRLF, and the resulting record has status_code, upgrade, conn and
accept_key captured with status_code 101, upgrade websocket, conn Upgrade
and accept_key equal to expected_accept_key, all compared byte-wise with
case folding. -/
theorem c4_response_valid_iff (st : WsHandshake) (buf : List Nat) :
    (∃ st', nn_ws_handshake_parse_server_response st buf =
        some (st', NN_WS_HANDSHAKE_VALID)) ↔
    (∃ st', (strstrIdx buf NN_WS_HANDSHAKE_TERMSEQ).isSome = true ∧
      nn_ws_resp_phase st buf = .finished st' [] ∧
      st'.status_code ≠ none ∧ st'.upgrade ≠ none ∧ st'.conn ≠ none ∧
      st'.accept_key ≠ none ∧
      nn_ws_validate_value (strBytes ("101")) (st'.status_code.getD []) true = true ∧
      nn_ws_validate_value (strBytes ("websocket")) (st'.upgrade.getD []) true = true ∧
      nn_ws_validate_value (strBytes ("Upgrade")) (st'.conn.getD []) true = true ∧
      nn_ws_validate_value st'.expected_accept_key (st'.accept_key.getD []) true = true) := by
  unfold nn_ws_handshake_parse_server_response
  rcases hopt : strstrIdx buf NN_WS_HANDSHAKE_TERMSEQ with _ | k
  · constructor
    · rintro ⟨st', hp⟩
      simp [NN_WS_HANDSHAKE_RECV_MORE, NN_WS_HANDSHAKE_VALID] at hp
    · rintro ⟨st', hss, _⟩
      simp at hss
  · simp only [Option.isNone_some, Bool.false_eq_true, if_false,
      Option.isSome_some, true_and]
    rcases hph : nn_ws_resp_phase st buf with st2 | ⟨st2, pos⟩ | _
    · constructor
      · rintro ⟨st', hp⟩
        simp [NN_WS_HANDSHAKE_RECV_MORE, NN_WS_HANDSHAKE_VALID] at hp
      · rintro ⟨st', hfin, _⟩
        exact absurd hfin (by simp)
    · dsimp only
      by_cases hpos : pos = []
      · subst hpos
        rw [if_neg (by simp)]
        constructor
        · rintro ⟨st', hp⟩
          simp only [Option.some.injEq, Prod.mk.injEq] at hp
          refine ⟨st2, rfl, ?_⟩
          exact (validate_response_valid_iff st2).mp hp.2
        · rintro ⟨st', hfin, hrest⟩
          injection hfin with h1 _
          refine ⟨st', ?_⟩
          rw [h1, (validate_response_valid_iff st').mpr hrest]
      · rw [if_pos hpos]
        constructor
        · rintro ⟨st', hp⟩
          simp at hp
        · rintro ⟨st', hfin, _⟩
          injection hfin with _ h2
          exact absurd h2 hpos
    · constructor
      · rintro ⟨st', hp⟩
        simp at hp
      · rintro ⟨st', hfin, _⟩
        exact absurd hfin (by simp)

set_option maxRecDepth 10000 in
/-- Witness for C4: a concrete 101 response against a record expecting the
accept key QUJD is parsed VALID. -/
theorem c4_response_valid_iff_witness :
    ∃ st', nn_ws_handshake_parse_server_response
      { wsHs0 with expected_accept_key := strBytes ("ABC") }
      (strBytes ("HTTP/1.1 101 Switching Protocols\r\nUpgrade: websocket\r\nConnection: Upgrade\r\nSec-WebSocket-Accept: ABC\r\n\r\n")) =
      some (st', NN_WS_HANDSHAKE_VALID) := by
  refine (c4_response_valid_iff
    { wsHs0 with expected_accept_key := strBytes ("ABC") }
    (strBytes ("HTTP/1.1 101 Switching Protocols\r\nUpgrade: websocket\r\nConnection: Upgrade\r\nSec-WebSocket-Accept: ABC\r\n\r\n"))).mpr
    ⟨hdrLoopSt (nn_ws_resp_phase
      { wsHs0 with expected_accept_key := strBytes ("ABC") }
      (strBytes ("HTTP/1.1 101 Switching Protocols\r\nUpgrade: websocket\r\nConnection: Upgrade\r\nSec-WebSocket-Accept: ABC\r\n\r\n"))), ?_⟩
  decide

/-- C10: when the server accepts a request that carried no
Sec-WebSocket-Protocol header (response_code OK, protocol slice absent),
the generated 101 reply still contains a Sec-WebSocket-Protocol header
line whose value is empty, because the absent slice contributes zero
bytes between the field name and the final CRLF CRLF. -/
theorem c10_empty_protocol_echoed (st : WsHandshake)
    (hrc : st.response_code = NN_WS_HANDSHAKE_RESPONSE_OK)
    (hp : st.protocol = none) :
    ∃ r l1, nn_ws_handshake_server_reply st = some r ∧
      r = l1 ++ strBytes ("\r\nSec-WebSocket-Protocol: \r\n\r\n") := by
  obtain ⟨ak, hak, _⟩ := hash_key_total (st.key.getD [])
    (NN_WS_HANDSHAKE_ACCEPT_KEY_LEN + 1) (by decide)
  have hrep : nn_ws_handshake_server_reply st =
      some (strBytes ("HTTP/1.1 101 Switching Protocols\r\nUpgrade: websocket\r\nConnection: Upgrade\r\nSec-WebSocket-Accept: ")
        ++ ak ++ strBytes ("\r\nSec-WebSocket-Protocol: ")
        ++ st.protocol.getD [] ++ strBytes ("\r\n\r\n")) := by
    unfold nn_ws_handshake_server_reply
    rw [if_pos hrc, hak]
  refine ⟨_,
    strBytes ("HTTP/1.1 101 Switching Protocols\r\nUpgrade: websocket\r\nConnection: Upgrade\r\nSec-WebSocket-Accept: ") ++ ak,
    hrep, ?_⟩
  rw [hp]
  have hsplit : strBytes ("\r\nSec-WebSocket-Protocol: ") ++ strBytes ("\r\n\r\n") =
      strBytes ("\r\nSec-WebSocket-Protocol: \r\n\r\n") := by decide
  rw [← hsplit]
  simp [List.append_assoc]

/-- Witness for C10: a fresh record with response_code OK and no protocol
slice yields a reply ending in an empty Sec-WebSocket-Protocol line. -/
theorem c10_empty_protocol_echoed_witness :
    ∃ r l1, nn_ws_handshake_server_reply
        { wsHs0 with response_code := NN_WS_HANDSHAKE_RESPONSE_OK } = some r ∧
      r = l1 ++ strBytes ("\r\nSec-WebSocket-Protocol: \r\n\r\n") :=
  c10_empty_protocol_echoed
    { wsHs0 with response_code := NN_WS_HANDSHAKE_RESPONSE_OK } rfl rfl

/-- All per-dispatch bookkeeping facts hold across the finite step table. -/
theorem wsStepChecks_all : ∀ (mode : WsMode) (st : HsState) (e : WsEvt),
    wsStepChecks mode st e = true := by decide

/-- raiseCount distributes over append. -/
theorem raiseCount_append (l1 l2 : List WsAct) :
    raiseCount (l1 ++ l2) = raiseCount l1 + raiseCount l2 :=
  List.countP_append _ _ _

/-- The stop-scan of an appended sequence: conjunction of the first scan and
of the second scan resumed from the first scan's final seen flag. -/
theorem stopBR_append (l1 l2 : List WsAct) : ∀ b, stopBR b (l1 ++ l2) =
    ((stopBR b l1).1 && (stopBR (stopBR b l1).2 l2).1,
     (stopBR (stopBR b l1).2 l2).2) := by
  induction l1 with
  | nil => intro b; simp [stopBR]
  | cons a t ih =>
    intro b
    cases a <;> simp [stopBR, ih, Bool.and_assoc]

/-- No dispatch is accepted in the DONE state. -/
theorem wsStep_done (mode : WsMode) (e : WsEvt) :
    wsStep mode HsState.done e = none := by
  cases e <;> rfl

/-- Invariant of a run from any state other than DONE: at most one result
is published, exactly one when the run ends in DONE, none when it ends in
any other live state, and no result precedes the timer-stop request as
recorded by stopReq. -/
theorem wsRun_inv (mode : WsMode) (es : List WsEvt) :
    ∀ st : HsState, st ≠ HsState.done →
    raiseCount (wsRun mode st es).2 ≤ 1 ∧
    ((wsRun mode st es).1 = some HsState.done →
      raiseCount (wsRun mode st es).2 = 1) ∧
    (∀ s, (wsRun mode st es).1 = some s → s ≠ HsState.done →
      raiseCount (wsRun mode st es).2 = 0) ∧
    (stopBR (stopReq st) (wsRun mode st es).2).1 = true := by
  induction es with
  | nil =>
    intro st hst
    refine ⟨by simp [wsRun, raiseCount], ?_, ?_, by simp [wsRun, stopBR]⟩
    · intro h
      simp only [wsRun, Option.some.injEq] at h
      exact absurd h hst
    · intro s _ _
      simp [wsRun, raiseCount]
  | cons e es ih =>
    intro st hst
    rcases hstep : wsStep mode st e with _ | ⟨st', acts⟩
    · simp [wsRun, hstep, raiseCount, stopBR]
    · have hc := wsStepChecks_all mode st e
      unfold wsStepChecks at hc
      rw [hstep] at hc
      dsimp only at hc
      simp only [Bool.and_eq_true, decide_eq_true_eq] at hc
      obtain ⟨⟨⟨ha, hb⟩, _⟩, _⟩ := hc
      have hrun : wsRun mode st (e :: es) =
          ((wsRun mode st' es).1, acts ++ (wsRun mode st' es).2) := by
        simp only [wsRun, hstep]
      rw [hrun]
      by_cases hdone : st' = HsState.done
      · subst hdone
        rw [if_pos rfl] at ha
        cases es with
        | nil =>
          have hnil : wsRun mode HsState.done [] =
              ((some HsState.done : Option HsState), ([] : List WsAct)) := rfl
          refine ⟨?_, ?_, ?_, ?_⟩
          · simp only [hnil, List.append_nil]
            exact ha.le
          · intro _
            simp only [hnil, List.append_nil]
            exact ha
          · intro s hs hne
            simp only [hnil, Option.some.injEq] at hs
            exact absurd hs.symm hne
          · simp only [hnil, List.append_nil, hb]
        | cons e2 es2 =>
          have hrun2 : wsRun mode HsState.done (e2 :: es2) =
              ((none : Option HsState), ([] : List WsAct)) := by
            simp only [wsRun, wsStep_done]
          refine ⟨?_, ?_, ?_, ?_⟩
          · simp only [hrun2, List.append_nil]
            exact ha.le
          · intro h
            rw [hrun2] at h
            exact absurd h (by simp)
          · intro s hs _
            rw [hrun2] at hs
            exact absurd hs (by simp)
          · rw [hrun2]
            simp only [List.append_nil, hb]
      · rw [if_neg hdone] at ha
        obtain ⟨ih1, ih2, ih3, ih4⟩ := ih st' hdone
        refine ⟨?_, ?_, ?_, ?_⟩
        · rw [raiseCount_append, ha]
          simpa using ih1
        · intro h
          rw [raiseCount_append, ha]
          simpa using ih2 h
        · intro s hs hne
          rw [raiseCount_append, ha]
          simpa using ih3 s hs hne
        · rw [stopBR_append, hb]
          simpa using ih4

/-- C7: a dispatch publishes a result only on the timer STOPPED event out
of a stopping state into DONE; DONE accepts no further dispatch; and every
run of the handler from IDLE publishes at most one result, exactly one
when it ends in DONE, none while it ends in any other live state, and
never before the timer stop has been requested. -/
theorem c7_single_raise_after_stop :
    (∀ (mode : WsMode) (st : HsState) (e : WsEvt) (st' : HsState)
        (acts : List WsAct),
      wsStep mode st e = some (st', acts) →
      ∀ r, WsAct.raiseDone r ∈ acts →
        e = WsEvt.stopped ∧
        (st = HsState.stoppingTimerError ∨ st = HsState.stoppingTimerDone) ∧
        st' = HsState.done) ∧
    (∀ (mode : WsMode) (e : WsEvt), wsStep mode HsState.done e = none) ∧
    (∀ (mode : WsMode) (es : List WsEvt),
      raiseCount (wsRun mode HsState.idle es).2 ≤ 1 ∧
      ((wsRun mode HsState.idle es).1 = some HsState.done →
        raiseCount (wsRun mode HsState.idle es).2 = 1) ∧
      (∀ s, (wsRun mode HsState.idle es).1 = some s → s ≠ HsState.done →
        raiseCount (wsRun mode HsState.idle es).2 = 0) ∧
      stopBeforeRaise (wsRun mode HsState.idle es).2 = true) := by
  refine ⟨?_, wsStep_done, ?_⟩
  · intro mode st e st' acts h r hr
    have hc := wsStepChecks_all mode st e
    unfold wsStepChecks at hc
    rw [h] at hc
    dsimp only at hc
    simp only [Bool.and_eq_true, decide_eq_true_eq] at hc
    exact hc.2 r hr
  · intro mode es
    have h := wsRun_inv mode es HsState.idle (by decide)
    exact ⟨h.1, h.2.1, h.2.2.1, h.2.2.2⟩

/-- Witness for C7: the STOPPED dispatch out of STOPPING_TIMER_DONE is the
publishing one, and a concrete two-event server run publishes nothing while
still live. -/
theorem c7_single_raise_after_stop_witness :
    (WsEvt.stopped = WsEvt.stopped ∧
      (HsState.stoppingTimerDone = HsState.stoppingTimerError ∨
       HsState.stoppingTimerDone = HsState.stoppingTimerDone) ∧
      HsState.done = HsState.done) ∧
    raiseCount (wsRun WsMode.server HsState.idle
      [WsEvt.start, WsEvt.received POutcome.valid]).2 = 0 :=
  ⟨c7_single_raise_after_stop.1 WsMode.server HsState.stoppingTimerDone
      WsEvt.stopped HsState.done [WsAct.raiseDone WsRes.ok] rfl WsRes.ok
      (by decide),
   (c7_single_raise_after_stop.2.2 WsMode.server
      [WsEvt.start, WsEvt.received POutcome.valid]).2.2.1
      HsState.serverReply rfl (by decide)⟩

/-- A successful strstr locates the needle as an infix of the haystack. -/
theorem strstrIdx_some_decomp (needle : List Nat) :
    ∀ (hay : List Nat) (i : Nat), strstrIdx hay needle = some i →
    ∃ l1 l2, hay = l1 ++ needle ++ l2 := by
  intro hay
  induction hay with
  | nil =>
    intro i h
    simp only [strstrIdx] at h
    split at h
    · exact ⟨[], [], by simp [*]⟩
    · exact absurd h (by simp)
  | cons a t ih =>
    intro i h
    simp only [strstrIdx] at h
    split at h
    · rename_i hp
      rw [List.isPrefixOf_iff_prefix] at hp
      obtain ⟨l2, hl2⟩ := hp
      exact ⟨[], l2, by simp [hl2.symm]⟩
    · rcases ho : strstrIdx t needle with _ | j
      · rw [ho] at h
        exact absurd h (by simp)
      · obtain ⟨l1, l2, hd⟩ := ih j ho
        exact ⟨a :: l1, l2, by simp [hd]⟩

/-- A haystack with fewer than two LF bytes cannot contain CRLFCRLF. -/
theorem strstrIdx_termseq_none (hay : List Nat) (h : hay.count 10 < 2) :
    strstrIdx hay NN_WS_HANDSHAKE_TERMSEQ = none := by
  rcases ho : strstrIdx hay NN_WS_HANDSHAKE_TERMSEQ with _ | i
  · rfl
  · obtain ⟨l1, l2, hd⟩ := strstrIdx_some_decomp NN_WS_HANDSHAKE_TERMSEQ hay i ho
    subst hd
    have hts : NN_WS_HANDSHAKE_TERMSEQ.count 10 = 2 := by decide
    simp only [List.count_append, hts] at h
    omega

/-- takeWhile keeps a list all of whose elements satisfy the predicate. -/
theorem takeWhile_of_all (p : Nat → Bool) :
    ∀ l : List Nat, (∀ b ∈ l, p b = true) → l.takeWhile p = l := by
  intro l
  induction l with
  | nil => intro _; rfl
  | cons a t ih =>
    intro h
    rw [List.takeWhile_cons, h a (List.mem_cons_self a t), ih
      (fun b hb => h b (List.mem_cons_of_mem a hb)), if_pos rfl]

/-- A list with no zero byte contains no zero byte. -/
theorem contains_zero_false :
    ∀ l : List Nat, (∀ b ∈ l, b ≠ 0) → l.contains 0 = false := by
  intro l
  induction l with
  | nil => intro _; rfl
  | cons a t ih =>
    intro h
    have ha : (0 == a) = false := by
      have := h a (List.mem_cons_self a t)
      simp [Ne.symm this]
    simp only [List.contains_cons, ha, Bool.false_or]
    exact ih (fun b hb => h b (List.mem_cons_of_mem a hb))

/-- Dropping past an appended prefix drops in the suffix. -/
theorem drop_len_add (r : List Nat) (n : Nat) :
    ∀ l : List Nat, (l ++ r).drop (l.length + n) = r.drop n := by
  intro l
  induction l with
  | nil => simp
  | cons a t ih => simp [Nat.succ_add, ih]

set_option maxRecDepth 4000 in
/-- No byte of the C6 stream is NUL: the bytes are 0x41, CR and LF only. -/
theorem c6_no_zero (k : Nat) :
    ∀ b ∈ c6data k ++ List.replicate 4 65, b ≠ 0 := by
  intro b hb
  rcases List.mem_append.mp hb with hb | hb
  · rcases List.mem_append.mp hb with hb | hb
    · exact (by decide : ∀ b ∈ c6chunk1, b ≠ 0) b hb
    · rw [List.eq_of_mem_replicate hb]
      decide
  · rw [List.eq_of_mem_replicate hb]
    decide

set_option maxRecDepth 4000 in
/-- Length of the C6 buffer after k AAAA rounds plus one more chunk. -/
theorem c6_len (k : Nat) :
    (c6data k ++ List.replicate 4 65).length = 156 + 4 * k := by
  have h1 : c6chunk1.length = 151 := by decide
  simp [c6data, List.length_append, List.length_replicate, h1]
  omega

/-- The backward scan finds nothing at the end of an AAAA chunk. -/
theorem c6_scan (k : Nat) :
    termseqScan (c6data k ++ List.replicate 4 65) = 0 := by
  have hdrop : ∀ i, i ≤ 4 →
      (c6data k ++ List.replicate 4 65).drop
        ((c6data k ++ List.replicate 4 65).length - i) =
      (List.replicate 4 65).drop (4 - i) := by
    intro i hi
    have h1 : (c6data k ++ List.replicate 4 65).length - i =
        (c6data k).length + (4 - i) := by
      simp only [List.length_append, List.length_replicate]
      omega
    rw [h1, drop_len_add]
  have h4 : matchBack (c6data k ++ List.replicate 4 65) 4 = false := by
    rw [matchBack, hdrop 4 (by omega)]
    decide
  have h3 : matchBack (c6data k ++ List.replicate 4 65) 3 = false := by
    rw [matchBack, hdrop 3 (by omega)]
    decide
  have h2 : matchBack (c6data k ++ List.replicate 4 65) 2 = false := by
    rw [matchBack, hdrop 2 (by omega)]
    decide
  have h1 : matchBack (c6data k ++ List.replicate 4 65) 1 = false := by
    rw [matchBack, hdrop 1 (by omega)]
    decide
  rw [termseqScan, h4, h3, h2, h1]
  rfl

set_option maxRecDepth 4000 in
/-- The C6 buffer holds a single LF byte, so no CRLFCRLF. -/
theorem c6_no_termseq (k : Nat) :
    strstrIdx (c6data k ++ List.replicate 4 65) NN_WS_HANDSHAKE_TERMSEQ =
      none := by
  apply strstrIdx_termseq_none
  have h1 : c6chunk1.count 10 = 1 := by decide
  simp [c6data, List.count_append, List.count_replicate, h1]

set_option maxRecDepth 8000 in
/-- One AAAA round of the C6 stream: while the buffer is not yet full the
handler posts another 4-byte recv. -/
theorem c6_step (k : Nat) (hk : k ≤ 984) :
    nn_ws_srv_step (fun _ => true) (c6st k) (List.replicate 4 65) =
      SrvOut.more (c6st (k + 1)) := by
  have htw : (c6data k ++ List.replicate 4 65).takeWhile
      (fun b => b ≠ 0) = c6data k ++ List.replicate 4 65 := by
    apply takeWhile_of_all
    intro b hb
    simpa using c6_no_zero k b hb
  have hparse := parse_no_termseq wsHs0 (fun _ => true)
    (c6data k ++ List.replicate 4 65) (c6_no_termseq k)
  have hdata : c6data k ++ List.replicate 4 65 = c6data (k + 1) := by
    have harith : 1 + 4 * k + 4 = 1 + 4 * (k + 1) := by omega
    simp only [c6data, List.append_assoc, ← List.replicate_add, harith]
  simp only [nn_ws_srv_step, c6st]
  rw [if_pos (Or.inl (by rw [c6_len]; simp only [NN_WS_BUF_SIZE]; omega)),
    htw, hparse]
  dsimp only
  rw [if_pos rfl,
    if_pos (by rw [c6_len]; simp only [NN_WS_BUF_SIZE]; omega),
    if_pos (by rw [c6_len]; omega),
    c6_scan,
    if_pos (by omega),
    if_neg (by rw [c6_len]; simp only [NN_WS_BUF_SIZE]; omega),
    hdata]

set_option maxRecDepth 4000 in
/-- The first sentence of the C6 invariant does hold: at every recv
scheduling point of a SERVER handshake, the filled prefix plus the posted
chunk fits the buffer (the overflow guard only permits a recv when
recv_pos + recv_len stays at or below the buffer size). -/
theorem srv_recv_invariant (p : WsSp → Bool) :
    ∀ st : SrvSt, SrvReach p st →
      st.data.length + st.recv_len ≤ NN_WS_BUF_SIZE := by
  intro st h
  induction h with
  | init hs =>
    exact (by decide : ([] : List Nat).length + serverMinRecvLen ≤ NN_WS_BUF_SIZE)
  | step chunk hreach hlen hstep ih =>
    rename_i st1 st2
    unfold nn_ws_srv_step at hstep
    dsimp only at hstep
    split at hstep
    · rcases hp : nn_ws_handshake_parse_client_opening st1.hs p
          ((st1.data ++ chunk).takeWhile (fun b => b ≠ 0)) with _ | ⟨hs', rc⟩
      · rw [hp] at hstep
        exact absurd hstep (by simp)
      · rw [hp] at hstep
        dsimp only at hstep
        split at hstep
        · split at hstep
          · split at hstep
            · split at hstep
              · split at hstep
                · exact absurd hstep (by simp)
                · rename_i hfit
                  injection hstep with h2
                  rw [← h2]
                  dsimp only
                  simp only [NN_WS_BUF_SIZE] at hfit ⊢
                  omega
              · exact absurd hstep (by simp)
            · exact absurd hstep (by simp)
          · exact absurd hstep (by simp)
        · exact absurd hstep (by simp)
    · exact absurd hstep (by simp)

set_option maxRecDepth 4000 in
/-- Every prefix of the C6 stream keeps the receive loop asking for more:
the first chunk leaves a dangling CR LF CR, the next byte completes
nothing, and each AAAA round stays within the buffer. -/
theorem c6_reach : ∀ k : Nat, k ≤ 985 →
    SrvReach (fun _ => true) (c6st k) := by
  have h0 : SrvReach (fun _ => true)
      { hs := wsHs0, data := [], recv_len := serverMinRecvLen } :=
    SrvReach.init wsHs0
  have h1 : SrvReach (fun _ => true)
      { hs := wsHs0, data := c6chunk1, recv_len := 1 } :=
    SrvReach.step c6chunk1 h0 (by decide) (by decide)
  have h2 : SrvReach (fun _ => true) (c6st 0) :=
    SrvReach.step [65] h1 (by decide) (by decide)
  intro k
  induction k with
  | zero => intro _; exact h2
  | succ n ih =>
    intro hn
    exact SrvReach.step (List.replicate 4 65) (ih (by omega)) rfl
      (c6_step n (by omega))

/-- A completed recv that fills the buffer with no NUL byte anywhere makes
the handler hit the parser's memchr NUL assertion. -/
theorem srv_step_full_crash (p : WsSp → Bool) (st : SrvSt) (chunk : List Nat)
    (hlen : (st.data ++ chunk).length = NN_WS_BUF_SIZE)
    (hnz : ∀ b ∈ st.data ++ chunk, b ≠ 0) :
    nn_ws_srv_step p st chunk = SrvOut.crash := by
  have hg : ¬((st.data ++ chunk).length < NN_WS_BUF_SIZE ∨
      (st.data ++ chunk).contains 0 = true) := by
    rintro (h | h)
    · rw [hlen] at h
      exact absurd h (lt_irrefl _)
    · rw [contains_zero_false _ hnz] at h
      exact absurd h (by simp)
  unfold nn_ws_srv_step
  dsimp only
  rw [if_neg hg]

/-- C6 (failing input): the guard recv_pos + recv_len <= sizeof(buffer)
holds at every recv scheduling point of every SERVER receive loop, but
precisely because it admits equality the loop can legally fill the buffer
completely: after the 151-byte chunk ending CR LF CR, one filler byte and
986 AAAA chunks, the 4096-byte buffer holds no NUL at all and the handler
invokes the parser, whose memchr NUL assertion aborts the process. -/
theorem c6_nul_invariant_fails :
    (∀ (p : WsSp → Bool) (st : SrvSt), SrvReach p st →
      st.data.length + st.recv_len ≤ NN_WS_BUF_SIZE) ∧
    SrvReach (fun _ => true) (c6st 985) ∧
    (List.replicate 4 65).length = (c6st 985).recv_len ∧
    ((c6st 985).data ++ List.replicate 4 65).length = NN_WS_BUF_SIZE ∧
    (∀ b ∈ (c6st 985).data ++ List.replicate 4 65, b ≠ 0) ∧
    nn_ws_srv_step (fun _ => true) (c6st 985) (List.replicate 4 65) =
      SrvOut.crash := by
  have hfull : ((c6st 985).data ++ List.replicate 4 65).length =
      NN_WS_BUF_SIZE := by
    show (c6data 985 ++ List.replicate 4 65).length = NN_WS_BUF_SIZE
    rw [c6_len]
    decide
  refine ⟨fun p st h => srv_recv_invariant p st h,
    c6_reach 985 (Nat.le_refl 985), rfl, hfull, c6_no_zero 985,
    srv_step_full_crash (fun _ => true) (c6st 985) (List.replicate 4 65)
      hfull (c6_no_zero 985)⟩

/-- Witness for C6: the initial scheduling point satisfies the buffer
invariant, and the full C6 buffer indeed holds the nonzero byte 0x41. -/
theorem c6_nul_invariant_fails_witness :
    ({ hs := wsHs0, data := [], recv_len := serverMinRecvLen } : SrvSt).data.length +
        ({ hs := wsHs0, data := [], recv_len := serverMinRecvLen } : SrvSt).recv_len ≤
      NN_WS_BUF_SIZE ∧
    (65 : Nat) ≠ 0 :=
  ⟨c6_nul_invariant_fails.1 (fun _ => true) _ (SrvReach.init wsHs0),
   c6_nul_invariant_fails.2.2.2.2.1 65 (by decide)⟩
